import Mathlib

/-!
Verification development for the `hpc-access-cli` reconciliation pipeline
(`src/hpc_access_cli/`).  The Python sources are shallowly embedded:

* Python `dict[str, T]` values are association lists `List (String × T)`
  in insertion order; real states have pairwise-distinct keys, which
  appears as `Nodup` hypotheses where proofs need it.
* Python `int` is `Int`, Python `float` is `Rat` (the quota arithmetic in
  the claims stays within exactly representable values).
* A fallible computation (a `KeyError`, `NameError`, `TypeError` or
  `ValueError` escaping the modelled function) is `Option`, `none` being
  the raised exception.
* Pydantic `model_dump` is embedded per model as the ordered field list
  of `PyVal` values, and Python `dict.get` (absent key gives `None`) is
  `optGet`.
-/

set_option maxRecDepth 4000

/-- Association list keyed by strings, the embedding of a Python `dict`. -/
abbrev PyDict (α : Type) : Type := List (String × α)

/-- Key list of a dict, in insertion order. -/
def keysOf {α : Type} (m : PyDict α) : List String := m.map Prod.fst

/-- Python `d[k]` / `d.get(k)` lookup: first binding of the key. -/
def alookup {α : Type} : PyDict α → String → Option α
  | [], _ => none
  | (k, v) :: rest, key => if k = key then some v else alookup rest key

/-- Python `d[k] = v`: replace the value in place if the key is bound,
otherwise append the binding. -/
def dinsert {α : Type} : PyDict α → String → α → PyDict α
  | [], key, v => [(key, v)]
  | (k, w) :: rest, key, v =>
    if k = key then (k, v) :: rest else (k, w) :: dinsert rest key v

/-- Sequence of `d[k] = v` updates. -/
def dinsertAll {α : Type} (m : PyDict α) (entries : List (String × α)) : PyDict α :=
  entries.foldl (fun acc kv => dinsert acc kv.1 kv.2) m

/-- Truthiness of a Python `Optional[int]`: `None` and `0` are falsy. -/
def truthyOptInt : Option Int → Bool
  | none => false
  | some v => v != 0

/-- Truthiness of a Python `float`: only `0.0` is falsy. -/
def truthyRat (q : Rat) : Bool := q != 0

/-- Truthiness of an optional reference (UUID-valued field): `None` is falsy. -/
def truthyOptRef : Option String → Bool
  | none => false
  | some _ => true

/-- Python `int(q)` on a float: truncation toward zero. -/
def pyIntOfRat (q : Rat) : Int := if q < 0 then -((-q).floor) else q.floor

/-- Multiplication of a float by a nonnegative integer constant, written
through `mkRat` so concrete instances reduce inside the kernel; it agrees
with rational multiplication. -/
def qMulNat (q : Rat) (n : Nat) : Rat := mkRat (q.num * n) q.den

/-- Division of a float by a positive integer constant, written through
`mkRat`; it agrees with rational division. -/
def qDivNat (q : Rat) (n : Nat) : Rat := mkRat q.num (q.den * n)

/-- constants.py: `POSIX_AG_PREFIX`. -/
def AG_PRE : String := "hpc-ag-"

/-- constants.py: `POSIX_PROJECT_PREFIX`. -/
def PRJ_PRE : String := "hpc-prj-"

/-- constants.py: `BASE_PATH_TIER1`. -/
def BASE_PATH_TIER1 : String := "/data/cephfs-1"

/-- constants.py: `BASE_PATH_TIER2`. -/
def BASE_PATH_TIER2 : String := "/data/cephfs-2"

/-- constants.py: `BASE_DN_GROUPS`. -/
def BASE_DN_GROUPS : String := "ou=Teams,ou=Groups,dc=hpc,dc=bihealth,dc=org"

/-- constants.py: `BASE_DN_PROJECTS`. -/
def BASE_DN_PROJECTS : String := "ou=Projects,ou=Groups,dc=hpc,dc=bihealth,dc=org"

/-- constants.py: `BASE_DN_CHARITE`. -/
def BASE_DN_CHARITE : String := "ou=Charite,ou=Users,dc=hpc,dc=bihealth,dc=org"

/-- constants.py: `BASE_DN_MDC`. -/
def BASE_DN_MDC : String := "ou=MDC,ou=Users,dc=hpc,dc=bihealth,dc=org"

/-- constants.py: `QUOTA_HOME_BYTES = 1024 * 1024 * 1024`. -/
def QUOTA_HOME_BYTES : Int := 1024 * 1024 * 1024

/-- constants.py: `HPC_ALUMNIS_GROUP`. -/
def HPC_ALUMNIS_GROUP : String := "hpc-alumnis"

/-- constants.py: `HPC_ALUMNIS_GID`. -/
def HPC_ALUMNIS_GID : Int := 1030001

/-- constants.py: `HPC_USERS_GID`. -/
def HPC_USERS_GID : Int := 1005269

/-- models.py: `LOGIN_SHELL_DISABLED`. -/
def LOGIN_SHELL_DISABLED : String := "/usr/sbin/nologin"

/-- states.py `strip_prefix(name, prefix=...)`.  The `p` argument is the
optional keyword argument; a passed empty string is falsy and takes the
default branch, exactly as in Python. -/
def strip_pre (name : String) (p : Option String) : String :=
  if p.getD "" ≠ "" then
    if (p.getD "").isPrefixOf name then name.drop (p.getD "").length else name
  else
    if AG_PRE.isPrefixOf name then name.drop AG_PRE.length
    else if PRJ_PRE.isPrefixOf name then name.drop PRJ_PRE.length
    else name

/-- models.py `Gecos`: five optional string fields. -/
structure GecosR where
  full_name : Option String
  office_location : Option String
  office_phone : Option String
  home_phone : Option String
  other : Option String
deriving DecidableEq

/-- A value inside a pydantic `model_dump` dictionary (or a diff mapping):
`None`, an int, a string, a list of strings, or a nested `Gecos` dump. -/
inductive PyVal where
  | none
  | int (i : Int)
  | str (s : String)
  | strlist (xs : List String)
  | gecosv (g : GecosR)
deriving DecidableEq

/-- Dump an `Optional[str]` field. -/
def optStrVal : Option String → PyVal
  | Option.none => PyVal.none
  | some s => PyVal.str s

/-- Dump an `Optional[int]` field. -/
def optIntVal : Option Int → PyVal
  | Option.none => PyVal.none
  | some i => PyVal.int i

/-- Dump an `Optional[Gecos]` field. -/
def optGecosVal : Option GecosR → PyVal
  | Option.none => PyVal.none
  | some g => PyVal.gecosv g

/-- models.py `LdapUser`. -/
structure LdapUserR where
  cn : String
  dn : String
  uid : String
  mail : Option String
  sn : Option String
  given_name : Option String
  uid_number : Int
  gid_number : Option Int
  home_directory : String
  login_shell : String
  gecos : Option GecosR
  ssh_public_key : List String
deriving DecidableEq

/-- models.py `LdapGroup`. -/
structure LdapGroupR where
  cn : String
  dn : String
  gid_number : Int
  description : Option String
  owner_dn : Option String
  delegate_dns : List String
  member_uids : List String
deriving DecidableEq

/-- models.py `FsDirectory`. -/
structure FsDirectoryR where
  path : String
  owner_name : String
  owner_uid : Int
  group_name : String
  group_gid : Int
  perms : String
  rbytes : Option Int
  rfiles : Option Int
  quota_bytes : Option Int
  quota_files : Option Int
deriving DecidableEq

/-- `LdapUser.model_dump()`: ordered field dictionary. -/
def ldapUserDump (u : LdapUserR) : List (String × PyVal) :=
  [("cn", PyVal.str u.cn), ("dn", PyVal.str u.dn), ("uid", PyVal.str u.uid),
   ("mail", optStrVal u.mail), ("sn", optStrVal u.sn),
   ("given_name", optStrVal u.given_name),
   ("uid_number", PyVal.int u.uid_number),
   ("gid_number", optIntVal u.gid_number),
   ("home_directory", PyVal.str u.home_directory),
   ("login_shell", PyVal.str u.login_shell),
   ("gecos", optGecosVal u.gecos),
   ("ssh_public_key", PyVal.strlist u.ssh_public_key)]

/-- `LdapGroup.model_dump()`: ordered field dictionary. -/
def ldapGroupDump (g : LdapGroupR) : List (String × PyVal) :=
  [("cn", PyVal.str g.cn), ("dn", PyVal.str g.dn),
   ("gid_number", PyVal.int g.gid_number),
   ("description", optStrVal g.description),
   ("owner_dn", optStrVal g.owner_dn),
   ("delegate_dns", PyVal.strlist g.delegate_dns),
   ("member_uids", PyVal.strlist g.member_uids)]

/-- `FsDirectory.model_dump()`: ordered field dictionary. -/
def fsDirectoryDump (d : FsDirectoryR) : List (String × PyVal) :=
  [("path", PyVal.str d.path), ("owner_name", PyVal.str d.owner_name),
   ("owner_uid", PyVal.int d.owner_uid),
   ("group_name", PyVal.str d.group_name),
   ("group_gid", PyVal.int d.group_gid),
   ("perms", PyVal.str d.perms),
   ("rbytes", optIntVal d.rbytes), ("rfiles", optIntVal d.rfiles),
   ("quota_bytes", optIntVal d.quota_bytes),
   ("quota_files", optIntVal d.quota_files)]

/-- models.py `StateOperation`. -/
inductive StateOperation where
  | CREATE
  | UPDATE
  | DISABLE
deriving DecidableEq

/-- models.py `LdapUserOp`. -/
structure LdapUserOpR where
  operation : StateOperation
  user : LdapUserR
  diff : List (String × PyVal)
deriving DecidableEq

/-- models.py `LdapGroupOp`. -/
structure LdapGroupOpR where
  operation : StateOperation
  group : LdapGroupR
  diff : List (String × PyVal)
deriving DecidableEq

/-- models.py `FsDirectoryOp`. -/
structure FsDirectoryOpR where
  operation : StateOperation
  directory : FsDirectoryR
  diff : List (String × PyVal)
deriving DecidableEq

/-- models.py `OperationsContainer`. -/
structure OperationsContainerR where
  ldap_user_ops : List LdapUserOpR
  ldap_group_ops : List LdapGroupOpR
  fs_ops : List FsDirectoryOpR
deriving DecidableEq

/-- models.py `SystemState`. -/
structure SystemStateR where
  ldap_users : PyDict LdapUserR
  ldap_groups : PyDict LdapGroupR
  fs_directories : PyDict FsDirectoryR
deriving DecidableEq

/-- models.py `ResourceData`: per-tier float quantities. -/
structure ResourceDataR where
  tier1_work : Rat := 0
  tier1_scratch : Rat := 0
  tier2_mirrored : Rat := 0
  tier2_unmirrored : Rat := 0
deriving DecidableEq

/-- models.py `ResourceDataUser`. -/
structure ResourceDataUserR where
  tier1_home : Rat := 0
deriving DecidableEq

/-- Runtime value of a `resources_used` field.  The registry delivers a
pydantic `ResourceData` / `ResourceDataUser` instance; `sync_storage_usage`
(main.py:145) assigns a plain Python dict to the attribute (pydantic does
not re-validate on assignment), so afterwards the field holds a raw dict. -/
inductive UsageVal where
  | model (r : ResourceDataR)
  | modelUser (r : ResourceDataUserR)
  | pydict (m : PyDict Rat)
deriving DecidableEq

/-- Observation: read one usage field from a `resources_used` value, via
attribute semantics on a model and key lookup on a raw dict. -/
def usageLookup : Option UsageVal → String → Option Rat
  | Option.none, _ => none
  | some (UsageVal.model r), key =>
      if key = "tier1_work" then some r.tier1_work
      else if key = "tier1_scratch" then some r.tier1_scratch
      else if key = "tier2_mirrored" then some r.tier2_mirrored
      else if key = "tier2_unmirrored" then some r.tier2_unmirrored
      else none
  | some (UsageVal.modelUser r), key =>
      if key = "tier1_home" then some r.tier1_home else none
  | some (UsageVal.pydict m), key => alookup m key

/-- models.py `HpcUser`, restricted to the fields the embedded operations
read (the dict key plays the role of the record's UUID; lifecycle fields
such as `status` and `expiration` are never read by the modelled code). -/
structure HpcUserR where
  primary_group : Option String
  full_name : String
  email : Option String
  phone_number : Option String
  uid : Int
  username : String
  resources_used : Option UsageVal
deriving DecidableEq

/-- models.py `HpcGroup`, restricted to the fields the embedded operations
read. -/
structure HpcGroupR where
  owner : String
  description : Option String
  delegate : Option String
  resources_requested : Option ResourceDataR
  resources_used : Option UsageVal
  gid : Option Int
  name : String
deriving DecidableEq

/-- models.py `HpcProject`, restricted to the fields the embedded
operations read. -/
structure HpcProjectR where
  group : Option String
  description : Option String
  delegate : Option String
  resources_requested : Option ResourceDataR
  resources_used : Option UsageVal
  gid : Option Int
  name : String
deriving DecidableEq

/-- models.py `HpcaccessState` (records keyed by their UUID string). -/
structure HpcaccessStateR where
  hpc_users : PyDict HpcUserR
  hpc_groups : PyDict HpcGroupR
  hpc_projects : PyDict HpcProjectR
deriving DecidableEq

/-- Python `s.endswith(t)`, written over the character lists so concrete
instances reduce inside the kernel. -/
def strEndsWith (s t : String) : Bool := t.data.isSuffixOf s.data

/-- states.py `user_dn`. -/
def userDn (u : HpcUserR) : String :=
  if strEndsWith u.username "_m" then "cn=" ++ u.full_name ++ "," ++ BASE_DN_MDC
  else "cn=" ++ u.full_name ++ "," ++ BASE_DN_CHARITE

/-- states.py `TargetStateBuilder._get_next_gid`, the list `gids`:
all group gid numbers plus the truthy user gid numbers of the current
system state. -/
def gidPool (st : SystemStateR) : List Int :=
  st.ldap_groups.map (fun kv => kv.2.gid_number) ++
    (st.ldap_users.map (fun kv => kv.2.gid_number)).filterMap
      (fun o => if truthyOptInt o then o else none)

/-- states.py `TargetStateBuilder._get_next_gid`:
`max(gids) + 1 if gids else 1000`. -/
def getNextGid (st : SystemStateR) : Int :=
  match gidPool st with
  | [] => 1000
  | x :: xs => xs.foldl max x + 1

/-- One loop iteration of `_build_ldap_groups` over `state.hpc_groups`
(states.py:345-362), threading the `next_gid` counter; the gid assignment
mutates the registry record, so the updated records are returned alongside
the LDAP group dict. -/
def processGroups (users : PyDict HpcUserR) :
    PyDict LdapGroupR → Int → List (String × HpcGroupR) →
    Option (Int × List (String × HpcGroupR) × PyDict LdapGroupR)
  | acc, nextGid, [] => some (nextGid, [], acc)
  | acc, nextGid, (k, group) :: rest =>
    let upd := if truthyOptInt group.gid then (group, nextGid)
               else ({ group with gid := some nextGid }, nextGid + 1)
    match alookup users upd.1.owner with
    | Option.none => none
    | some owner =>
      let del : Option (Option HpcUserR) :=
        match upd.1.delegate with
        | Option.none => some Option.none
        | some d => (alookup users d).map some
      match del with
      | Option.none => none
      | some delegate =>
        let groupName := AG_PRE ++ upd.1.name
        let entry : LdapGroupR :=
          { dn := "cn=" ++ AG_PRE ++ upd.1.name ++ "," ++ BASE_DN_GROUPS,
            cn := groupName,
            gid_number := (upd.1.gid).getD 0,
            description := upd.1.description,
            owner_dn := some (userDn owner),
            delegate_dns := match delegate with
              | Option.none => []
              | some d => [userDn d],
            member_uids := [] }
        match processGroups users (dinsert acc groupName entry) upd.2 rest with
        | Option.none => none
        | some (finalGid, restUpd, ldap) =>
          some (finalGid, (k, upd.1) :: restUpd, ldap)

/-- One loop iteration of `_build_ldap_groups` over `state.hpc_projects`
(states.py:364-386); owner resolution goes through the project's owning
group, whose records have already been updated by the group pass. -/
def processProjects (users : PyDict HpcUserR) (groups : PyDict HpcGroupR) :
    PyDict LdapGroupR → Int → List (String × HpcProjectR) →
    Option (Int × List (String × HpcProjectR) × PyDict LdapGroupR)
  | acc, nextGid, [] => some (nextGid, [], acc)
  | acc, nextGid, (k, project) :: rest =>
    let upd := if truthyOptInt project.gid then (project, nextGid)
               else ({ project with gid := some nextGid }, nextGid + 1)
    let ownerDn : Option (Option String) :=
      match upd.1.group with
      | Option.none => some Option.none
      | some gref =>
        match alookup groups gref with
        | Option.none => none
        | some owningGroup =>
          match alookup users owningGroup.owner with
          | Option.none => none
          | some owner => some (some (userDn owner))
    match ownerDn with
    | Option.none => none
    | some odn =>
      let del : Option (Option HpcUserR) :=
        match upd.1.delegate with
        | Option.none => some Option.none
        | some d => (alookup users d).map some
      match del with
      | Option.none => none
      | some delegate =>
        let projectName := PRJ_PRE ++ upd.1.name
        let entry : LdapGroupR :=
          { dn := "cn=" ++ PRJ_PRE ++ upd.1.name ++ "," ++ BASE_DN_PROJECTS,
            cn := projectName,
            gid_number := (upd.1.gid).getD 0,
            description := upd.1.description,
            owner_dn := odn,
            delegate_dns := match delegate with
              | Option.none => []
              | some d => [userDn d],
            member_uids := [] }
        match processProjects users groups (dinsert acc projectName entry) upd.2 rest with
        | Option.none => none
        | some (finalGid, restUpd, ldap) =>
          some (finalGid, (k, upd.1) :: restUpd, ldap)

/-- Result of states.py `TargetStateBuilder._build_ldap_groups`: the LDAP
group dict plus the registry records as mutated by gid assignment and the
final counter value. -/
structure BuildGroupsRes where
  ldapGroups : PyDict LdapGroupR
  updGroups : PyDict HpcGroupR
  updProjects : PyDict HpcProjectR
  nextGid : Int
deriving DecidableEq

/-- states.py `TargetStateBuilder._build_ldap_groups`, seeded with
`self.next_gid` (computed by `_get_next_gid` at construction time). -/
def buildLdapGroups (seed : Int) (hpc : HpcaccessStateR) : Option BuildGroupsRes :=
  match processGroups hpc.hpc_users [] seed hpc.hpc_groups with
  | Option.none => none
  | some (ng1, updG, ldapG) =>
    match processProjects hpc.hpc_users updG ldapG ng1 hpc.hpc_projects with
    | Option.none => none
    | some (ng2, updP, ldapGP) => some ⟨ldapGP, updG, updP, ng2⟩

/-- Observation: the gids handed out to records whose incoming gid was
falsy, read off by aligning the input and output record lists. -/
def newGidsOfGroups (inp out : List (String × HpcGroupR)) : List Int :=
  (inp.zip out).filterMap
    (fun x => if truthyOptInt x.1.2.gid then none else x.2.2.gid)

/-- Observation: ditto for projects. -/
def newGidsOfProjects (inp out : List (String × HpcProjectR)) : List Int :=
  (inp.zip out).filterMap
    (fun x => if truthyOptInt x.1.2.gid then none else x.2.2.gid)

/-- All gids allocated in one builder run, in allocation order. -/
def newGids (hpc : HpcaccessStateR) (res : BuildGroupsRes) : List Int :=
  newGidsOfGroups hpc.hpc_groups res.updGroups ++
    newGidsOfProjects hpc.hpc_projects res.updProjects

/-- Number of group records needing a fresh gid. -/
def countNewGroups (gs : List (String × HpcGroupR)) : Nat :=
  (gs.filter (fun x => !truthyOptInt x.2.gid)).length

/-- Number of project records needing a fresh gid. -/
def countNewProjects (ps : List (String × HpcProjectR)) : Nat :=
  (ps.filter (fun x => !truthyOptInt x.2.gid)).length

/-- The consecutive integers `s, s+1, ..., s+n-1`. -/
def intRange (s : Int) : Nat → List Int
  | 0 => []
  | n + 1 => s :: intRange (s + 1) n

/-- Python `a or b` on an optional int against a default (states.py:172,
`hpc_group.gid or HPC_ALUMNIS_GID`). -/
def pyOrInt (o : Option Int) (d : Int) : Int :=
  if truthyOptInt o then o.getD 0 else d

/-- Path head for user home directories
(`f"BASE_PATH_TIER1/home/users/username"`). -/
def userHomePre : String := BASE_PATH_TIER1 ++ "/home/users/"

/-- Path head for tier-1 group home directories. -/
def grpHomePre : String := BASE_PATH_TIER1 ++ "/home/groups/ag-"

/-- Path head for tier-1 group scratch directories. -/
def grpScratchPre : String := BASE_PATH_TIER1 ++ "/scratch/groups/ag-"

/-- Path head for tier-1 group work directories. -/
def grpWorkPre : String := BASE_PATH_TIER1 ++ "/work/groups/ag-"

/-- Path head for tier-2 unmirrored group directories. -/
def grpUnmPre : String := BASE_PATH_TIER2 ++ "/unmirrored/groups/ag-"

/-- Path head for tier-2 mirrored group directories. -/
def grpMirPre : String := BASE_PATH_TIER2 ++ "/mirrored/groups/ag-"

/-- Path head for tier-1 project home directories. -/
def prjHomePre : String := BASE_PATH_TIER1 ++ "/home/projects/"

/-- Path head for tier-1 project scratch directories. -/
def prjScratchPre : String := BASE_PATH_TIER1 ++ "/scratch/projects/"

/-- Path head for tier-1 project work directories. -/
def prjWorkPre : String := BASE_PATH_TIER1 ++ "/work/projects/"

/-- Path head for tier-2 unmirrored project directories. -/
def prjUnmPre : String := BASE_PATH_TIER2 ++ "/unmirrored/projects/"

/-- Path head for tier-2 mirrored project directories. -/
def prjMirPre : String := BASE_PATH_TIER2 ++ "/mirrored/projects/"

/-- states.py:165-189, the user loop of `_build_fs_directories`: one home
directory per registry user. -/
def userDirs (groups : PyDict HpcGroupR) :
    PyDict FsDirectoryR → List (String × HpcUserR) → Option (PyDict FsDirectoryR)
  | acc, [] => some acc
  | acc, (_, user) :: rest =>
    let resolved : Option (String × Int) :=
      match user.primary_group with
      | Option.none => some (HPC_ALUMNIS_GROUP, HPC_ALUMNIS_GID)
      | some pg =>
        match alookup groups pg with
        | Option.none => none
        | some hpcGroup => some (hpcGroup.name, pyOrInt hpcGroup.gid HPC_ALUMNIS_GID)
    match resolved with
    | Option.none => none
    | some (groupName, groupGid) =>
      let path := userHomePre ++ user.username
      let d : FsDirectoryR :=
        { path := path, owner_name := user.username, owner_uid := user.uid,
          group_name := groupName, group_gid := groupGid,
          perms := "drwx--S---", rbytes := none, rfiles := none,
          quota_bytes := some QUOTA_HOME_BYTES, quota_files := none }
      userDirs groups (dinsert acc path d) rest

/-- A tier-1/tier-2 group or project storage directory entry
(states.py:210-221, 232-243, 270-281, 292-303; the `perms`, `rbytes`,
`rfiles` and `quota_files` values are the literals of those blocks). -/
def mkStorageDir (path ownerName : String) (ownerUid : Int) (groupName : String)
    (groupGid : Int) (quotaBytes : Option Int) : FsDirectoryR :=
  { path := path, owner_name := ownerName, owner_uid := ownerUid,
    group_name := groupName, group_gid := groupGid,
    perms := "drwxrwS---", rbytes := none, rfiles := none,
    quota_bytes := quotaBytes, quota_files := none }

/-- states.py:196-243, the per-group body of `_build_fs_directories`:
the list of `result[...] = FsDirectory(...)` insertions this group
produces.  A falsy `resources_requested` evaluates
`(group.resources_requested or ResourceData).tier1_work`, which reads the
field on the pydantic model class and raises, hence `none`. -/
def groupDirEntries (owner : HpcUserR) (group : HpcGroupR) :
    Option (List (String × FsDirectoryR)) :=
  match group.resources_requested with
  | Option.none => none
  | some rr =>
    if !truthyRat rr.tier1_work then some []
    else if !truthyRat rr.tier1_scratch then some []
    else
      let gname := strip_pre group.name (some AG_PRE)
      let gid := group.gid.getD 0
      let tier1 : List (String × FsDirectoryR) :=
        [(grpHomePre ++ gname,
          mkStorageDir (grpHomePre ++ gname) owner.username owner.uid gname gid
            (some QUOTA_HOME_BYTES)),
         (grpScratchPre ++ gname,
          mkStorageDir (grpScratchPre ++ gname) owner.username owner.uid gname gid
            (some (pyIntOfRat (qMulNat rr.tier1_scratch (1024 * 1024 * 1024 * 1024))))),
         (grpWorkPre ++ gname,
          mkStorageDir (grpWorkPre ++ gname) owner.username owner.uid gname gid
            (some (pyIntOfRat (qMulNat rr.tier1_work (1024 * 1024 * 1024 * 1024)))))]
      let tier2 : List (String × FsDirectoryR) :=
        (if truthyRat rr.tier2_unmirrored then
          [(grpUnmPre ++ gname,
            mkStorageDir (grpUnmPre ++ gname) owner.username owner.uid gname gid
              (some (pyIntOfRat rr.tier2_unmirrored)))]
         else []) ++
        (if truthyRat rr.tier2_mirrored then
          [(grpMirPre ++ gname,
            mkStorageDir (grpMirPre ++ gname) owner.username owner.uid gname gid
              (some (pyIntOfRat rr.tier2_mirrored)))]
         else [])
      some (tier1 ++ tier2)

/-- states.py:190-243, the group loop of `_build_fs_directories`.  The
loop variable `group` survives the loop, so the last iterated group is
threaded out for the project loop to (incorrectly) use. -/
def groupDirsLoop (users : PyDict HpcUserR) :
    PyDict FsDirectoryR → Option HpcGroupR → List (String × HpcGroupR) →
    Option (PyDict FsDirectoryR × Option HpcGroupR)
  | acc, last, [] => some (acc, last)
  | acc, _, (_, group) :: rest =>
    if !truthyOptInt group.gid then groupDirsLoop users acc (some group) rest
    else
      match alookup users group.owner with
      | Option.none => none
      | some owner =>
        match groupDirEntries owner group with
        | Option.none => none
        | some entries => groupDirsLoop users (dinsertAll acc entries) (some group) rest

/-- states.py:258-303, the per-project insertions; `projectName` is
whatever name the caller derived (from the leaked `group` variable at
states.py:257). -/
def projectDirEntries (owner : HpcUserR) (projectName : String)
    (project : HpcProjectR) : Option (List (String × FsDirectoryR)) :=
  match project.resources_requested with
  | Option.none => none
  | some rr =>
    if !truthyRat rr.tier1_work then some []
    else if !truthyRat rr.tier1_scratch then some []
    else
      let gid := project.gid.getD 0
      let tier1 : List (String × FsDirectoryR) :=
        [(prjHomePre ++ projectName,
          mkStorageDir (prjHomePre ++ projectName) owner.username owner.uid
            projectName gid (some QUOTA_HOME_BYTES)),
         (prjScratchPre ++ projectName,
          mkStorageDir (prjScratchPre ++ projectName) owner.username owner.uid
            projectName gid
            (some (pyIntOfRat (qMulNat rr.tier1_scratch (1024 * 1024 * 1024 * 1024))))),
         (prjWorkPre ++ projectName,
          mkStorageDir (prjWorkPre ++ projectName) owner.username owner.uid
            projectName gid
            (some (pyIntOfRat (qMulNat rr.tier1_work (1024 * 1024 * 1024 * 1024)))))]
      let tier2 : List (String × FsDirectoryR) :=
        (if truthyRat rr.tier2_unmirrored then
          [(prjUnmPre ++ projectName,
            mkStorageDir (prjUnmPre ++ projectName) owner.username owner.uid
              projectName gid (some (pyIntOfRat rr.tier2_unmirrored)))]
         else []) ++
        (if truthyRat rr.tier2_mirrored then
          [(prjMirPre ++ projectName,
            mkStorageDir (prjMirPre ++ projectName) owner.username owner.uid
              projectName gid (some (pyIntOfRat rr.tier2_mirrored)))]
         else [])
      some (tier1 ++ tier2)

/-- states.py:244-303, the project loop of `_build_fs_directories`.
`project_name = strip_prefix(group.name, prefix=POSIX_PROJECT_PREFIX)`
at states.py:257 references the groups-loop variable, carried here as
`lastGroup`; with no groups iterated this raises `NameError`. -/
def projectDirsLoop (st : HpcaccessStateR) (lastGroup : Option HpcGroupR) :
    PyDict FsDirectoryR → List (String × HpcProjectR) → Option (PyDict FsDirectoryR)
  | acc, [] => some acc
  | acc, (_, project) :: rest =>
    if !truthyOptInt project.gid then projectDirsLoop st lastGroup acc rest
    else if !truthyOptRef project.group then projectDirsLoop st lastGroup acc rest
    else
      match alookup st.hpc_groups (project.group.getD "") with
      | Option.none => none
      | some owningGroup =>
        match alookup st.hpc_users owningGroup.owner with
        | Option.none => none
        | some owner =>
          match lastGroup with
          | Option.none => none
          | some leaked =>
            let projectName := strip_pre leaked.name (some PRJ_PRE)
            match projectDirEntries owner projectName project with
            | Option.none => none
            | some entries =>
              projectDirsLoop st lastGroup (dinsertAll acc entries) rest

/-- states.py `TargetStateBuilder._build_fs_directories`, applied to a
registry state whose gid assignment has already happened (as in `_build`,
which runs `_build_ldap_groups` first). -/
def buildFsDirectories (st : HpcaccessStateR) : Option (PyDict FsDirectoryR) :=
  match userDirs st.hpc_groups [] st.hpc_users with
  | Option.none => none
  | some r1 =>
    match groupDirsLoop st.hpc_users r1 none st.hpc_groups with
    | Option.none => none
    | some (r2, lastGroup) => projectDirsLoop st lastGroup r2 st.hpc_projects

/-- Union of the key sets of two dumps (`set(a) | set(b)`, determinized in
first-then-second order; the diff result is order-insensitive data). -/
def unionKeys (a b : List String) : List String :=
  a ++ b.filter (fun k => decide (k ∉ a))

/-- Python `d.get(key)` on a dump: absent keys give `None`. -/
def optGet (m : List (String × PyVal)) (k : String) : PyVal :=
  (alookup m k).getD PyVal.none

/-- states.py:674-677 / 699-702: the generic dump diff,
`{key: dst.get(key) for key in all_keys if src.get(key) != dst.get(key)}`. -/
def dictDiff (sd dd : List (String × PyVal)) : List (String × PyVal) :=
  (unionKeys (keysOf sd) (keysOf dd)).filterMap
    (fun k => if optGet sd k ≠ optGet dd k then some (k, optGet dd k) else none)

/-- states.py:730: the literal key tuple of `_compare_fs_directories`
(note `"owner_gid"`, which is not a field of `FsDirectory`). -/
def fsAllowKeys : List String :=
  ["owner_uid", "owner_gid", "perms", "quota_bytes", "quota_files"]

/-- states.py:729-732: the directory diff, restricted to the literal key
tuple, with `dict.get` semantics on both sides. -/
def fsDiff (d1 d2 : FsDirectoryR) : List (String × PyVal) :=
  fsAllowKeys.filterMap
    (fun k =>
      if optGet (fsDirectoryDump d1) k ≠ optGet (fsDirectoryDump d2) k then
        some (k, optGet (fsDirectoryDump d2) k)
      else none)

/-- `[m[k] for k in ks]`: each lookup can raise `KeyError`. -/
def lookupAll {α : Type} (m : PyDict α) : List String → Option (List α)
  | [] => some []
  | k :: ks =>
    match alookup m k with
    | Option.none => none
    | some v =>
      match lookupAll m ks with
      | Option.none => none
      | some vs => some (v :: vs)

/-- The common-key loop shared by the three `_compare_*` methods: for each
common key, look up both sides, and if the dumps differ emit the source
entity together with the computed diff. -/
def updateLoop {α : Type} (dump : α → List (String × PyVal))
    (diffOf : α → α → List (String × PyVal)) (src dst : PyDict α) :
    List String → Option (List (α × List (String × PyVal)))
  | [] => some []
  | k :: ks =>
    match alookup src k with
    | Option.none => none
    | some su =>
      match alookup dst k with
      | Option.none => none
      | some du =>
        match updateLoop dump diffOf src dst ks with
        | Option.none => none
        | some rest =>
          if dump su ≠ dump du then some ((su, diffOf su du) :: rest)
          else some rest

/-- states.py `TargetStateComparison._compare_ldap_users`.  The `extra`,
`missing` and `common` key sets are determinized in key-list order; note
that the missing-key loop looks the username up in `self.src.ldap_users`
(states.py:665), which raises `KeyError` for any genuinely missing user. -/
def compareLdapUsers (src dst : PyDict LdapUserR) : Option (List LdapUserOpR) :=
  let extra := (keysOf src).filter (fun k => decide (k ∉ keysOf dst))
  let missing := (keysOf dst).filter (fun k => decide (k ∉ keysOf src))
  let common := (keysOf src).filter (fun k => decide (k ∈ keysOf dst))
  match lookupAll src extra with
  | Option.none => none
  | some disabledUsers =>
    match lookupAll src missing with
    | Option.none => none
    | some createdUsers =>
      match updateLoop ldapUserDump
          (fun a b => dictDiff (ldapUserDump a) (ldapUserDump b)) src dst common with
      | Option.none => none
      | some updated =>
        some (disabledUsers.map (fun u => ⟨StateOperation.DISABLE, u, []⟩) ++
          createdUsers.map (fun u => ⟨StateOperation.CREATE, u, []⟩) ++
          updated.map (fun x => ⟨StateOperation.UPDATE, x.1, x.2⟩))

/-- states.py `TargetStateComparison._compare_ldap_groups` (the
missing-key loop correctly reads `self.dst.ldap_groups`,
states.py:690). -/
def compareLdapGroups (src dst : PyDict LdapGroupR) : Option (List LdapGroupOpR) :=
  let extra := (keysOf src).filter (fun k => decide (k ∉ keysOf dst))
  let missing := (keysOf dst).filter (fun k => decide (k ∉ keysOf src))
  let common := (keysOf src).filter (fun k => decide (k ∈ keysOf dst))
  match lookupAll src extra with
  | Option.none => none
  | some disabledGroups =>
    match lookupAll dst missing with
    | Option.none => none
    | some createdGroups =>
      match updateLoop ldapGroupDump
          (fun a b => dictDiff (ldapGroupDump a) (ldapGroupDump b)) src dst common with
      | Option.none => none
      | some updated =>
        some (disabledGroups.map (fun g => ⟨StateOperation.DISABLE, g, []⟩) ++
          createdGroups.map (fun g => ⟨StateOperation.CREATE, g, []⟩) ++
          updated.map (fun x => ⟨StateOperation.UPDATE, x.1, x.2⟩))

/-- states.py `TargetStateComparison._compare_fs_directories` (the
missing-key loop correctly reads `self.dst.fs_directories`,
states.py:719). -/
def compareFsDirectories (src dst : PyDict FsDirectoryR) :
    Option (List FsDirectoryOpR) :=
  let extra := (keysOf src).filter (fun k => decide (k ∉ keysOf dst))
  let missing := (keysOf dst).filter (fun k => decide (k ∉ keysOf src))
  let common := (keysOf src).filter (fun k => decide (k ∈ keysOf dst))
  match lookupAll src extra with
  | Option.none => none
  | some disabledDirs =>
    match lookupAll dst missing with
    | Option.none => none
    | some createdDirs =>
      match updateLoop fsDirectoryDump fsDiff src dst common with
      | Option.none => none
      | some updated =>
        some (disabledDirs.map (fun d => ⟨StateOperation.DISABLE, d, []⟩) ++
          createdDirs.map (fun d => ⟨StateOperation.CREATE, d, []⟩) ++
          updated.map (fun x => ⟨StateOperation.UPDATE, x.1, x.2⟩))

/-- states.py `TargetStateComparison.run`. -/
def runComparison (src dst : SystemStateR) : Option OperationsContainerR :=
  match compareLdapUsers src.ldap_users dst.ldap_users with
  | Option.none => none
  | some userOps =>
    match compareLdapGroups src.ldap_groups dst.ldap_groups with
    | Option.none => none
    | some groupOps =>
      match compareFsDirectories src.fs_directories dst.fs_directories with
      | Option.none => none
      | some fsOps => some ⟨userOps, groupOps, fsOps⟩

/-- Python slice `s[a:b]`. -/
def sliceStr (s : String) (a b : Nat) : String := String.mk ((s.data.drop a).take (b - a))

/-- Python `s.replace(c, "")`. -/
def removeChar (c : Char) (s : String) : String := String.mk (s.data.filter (fun a => a ≠ c))

/-- Python `s.replace(c, d)` for single characters. -/
def replaceChar (c d : Char) (s : String) : String :=
  String.mk (s.data.map (fun a => if a = c then d else a))

/-- Python `c in s`. -/
def containsChar (c : Char) (s : String) : Bool := s.data.contains c

/-- fs.py `_transform_perms`.  The source's second `elif "S" in perms_user`
branch repeats the first condition and is dead; the group part falls
through without a `g=` wrapper when it contains neither `S` nor `s`,
exactly as in the source. -/
def transformPerms (perms : String) : String :=
  let pu := removeChar '-' (sliceStr perms 1 4)
  let puStr := if containsChar 'S' pu then "u=" ++ removeChar 'S' pu ++ ",u+s"
               else "u=" ++ pu ++ ",u-s"
  let pg := removeChar '-' (sliceStr perms 4 7)
  let pgStr := if containsChar 'S' pg then "g=" ++ removeChar 'S' pg ++ ",g+s"
               else if containsChar 's' pg then "g=" ++ replaceChar 's' 'x' pg ++ ",g+s"
               else pg
  let po := replaceChar 's' 'x' (removeChar 'S' (removeChar '-' (String.mk (perms.data.drop 7))))
  puStr ++ "," ++ pgStr ++ "," ++ ("o=" ++ po ++ ",o-s")

/-- A mutating shell command issued by fs.py `FsResourceManager` (the
`check_call` invocations; suppressed under dry run). -/
inductive FsCmd where
  | mkdirCmd (perms path : String)
  | chownCreate (ownerGroup path : String)
  | setfattrSetBytes (value : PyVal) (path : String)
  | setfattrRemoveBytes (path : String)
  | setfattrSetFiles (value : PyVal) (path : String)
  | setfattrRemoveFiles (path : String)
  | chownCmd (value : PyVal) (path : String)
  | chgrpCmd (value : PyVal) (path : String)
  | chmodCmd (perms path : String)
deriving DecidableEq

/-- fs.py `_fs_op_update`: one command per diff item, dispatched on the
field name; an unknown field name raises `ValueError`. -/
def fsOpUpdateCmds (d : FsDirectoryR) : List (String × PyVal) → Option (List FsCmd)
  | [] => some []
  | (key, value) :: rest =>
    let cmd : Option FsCmd :=
      if key = "quota_bytes" then
        some (if value = PyVal.none then FsCmd.setfattrRemoveBytes d.path
              else FsCmd.setfattrSetBytes value d.path)
      else if key = "quota_files" then
        some (if value = PyVal.none then FsCmd.setfattrRemoveFiles d.path
              else FsCmd.setfattrSetFiles value d.path)
      else if key = "owner_name" ∨ key = "owner_uid" then
        some (FsCmd.chownCmd value d.path)
      else if key = "group_name" ∨ key = "group_gid" then
        some (FsCmd.chgrpCmd value d.path)
      else if key = "perms" then
        some (FsCmd.chmodCmd (transformPerms d.perms) d.path)
      else none
    match cmd with
    | Option.none => none
    | some c =>
      match fsOpUpdateCmds d rest with
      | Option.none => none
      | some cs => some (c :: cs)

/-- fs.py `apply_fs_op`: dispatch on `fs_op.operation` to the create /
disable / update handlers, collecting the mutating commands each would
issue when not in dry-run mode. -/
def applyFsOpCmds (op : FsDirectoryOpR) : Option (List FsCmd) :=
  match op.operation with
  | StateOperation.CREATE =>
    some [FsCmd.mkdirCmd (transformPerms op.directory.perms) op.directory.path,
          FsCmd.chownCreate (op.directory.owner_name ++ ":" ++ op.directory.group_name)
            op.directory.path]
  | StateOperation.DISABLE =>
    some [FsCmd.setfattrSetFiles (PyVal.int 0) op.directory.path]
  | StateOperation.UPDATE => fsOpUpdateCmds op.directory op.diff

/-- A Python object appearing in the `==` comparisons of ldap.py
`apply_group_op` (ldap.py:292-296): the left side is the `LdapGroupOp`
pydantic object itself, the right side a `StateOperation` enum member. -/
inductive PyObj where
  | groupOp (op : LdapGroupOpR)
  | stateOp (s : StateOperation)
deriving DecidableEq

/-- Python `==` between such objects: `BaseModel.__eq__` returns
`NotImplemented` against a non-model, and enum equality is identity, so
values of the two different types always compare unequal. -/
def pyEq : PyObj → PyObj → Bool
  | PyObj.groupOp a, PyObj.groupOp b => a == b
  | PyObj.stateOp a, PyObj.stateOp b => a == b
  | _, _ => false

/-- A mutating action against the LDAP directory service. -/
inductive LdapCmd where
  | addEntry (dn : String)
  | setAttr (dn key : String) (value : PyVal)
  | commit (dn : String)
deriving DecidableEq

/-- ldap.py `_group_op_create`: the body is `pass` (ldap.py:299-300). -/
def groupOpCreateCmds (_ : LdapGroupR) : List LdapCmd := []

/-- ldap.py `_group_op_disable`: documented no-op (ldap.py:302-306). -/
def groupOpDisableCmds (_ : LdapGroupR) : List LdapCmd := []

/-- ldap.py `_group_op_update`: set each diff field on the searched entry
and commit unless dry run (ldap.py:308-334). -/
def groupOpUpdateCmds (g : LdapGroupR) (diff : List (String × PyVal))
    (dryRun : Bool) : List LdapCmd :=
  diff.map (fun kv => LdapCmd.setAttr g.dn kv.1 kv.2) ++
    (if dryRun then [] else [LdapCmd.commit g.dn])

/-- ldap.py `apply_group_op` (ldap.py:290-297): the dispatch compares the
operation *object* with the enum members (`if op == StateOperation.CREATE:`
and so on), not `op.operation`. -/
def applyGroupOpCmds (op : LdapGroupOpR) (dryRun : Bool) : List LdapCmd :=
  if pyEq (PyObj.groupOp op) (PyObj.stateOp StateOperation.CREATE) then
    groupOpCreateCmds op.group
  else if pyEq (PyObj.groupOp op) (PyObj.stateOp StateOperation.DISABLE) then
    groupOpDisableCmds op.group
  else if pyEq (PyObj.groupOp op) (PyObj.stateOp StateOperation.UPDATE) then
    groupOpUpdateCmds op.group op.diff dryRun
  else []

/-- config.py `Settings`, restricted to the per-entity-class operation
filters and the dry-run flag (the fields `sync_data` copies its CLI
options into, main.py:102-109). -/
structure SettingsR where
  ldap_user_ops : List StateOperation
  ldap_group_ops : List StateOperation
  fs_ops : List StateOperation
  dry_run : Bool
deriving DecidableEq

/-- config.py:73-89: the default value of the three operation filters. -/
def defaultOps : List StateOperation :=
  [StateOperation.CREATE, StateOperation.UPDATE, StateOperation.DISABLE]

/-- An operation handed to an executor by the `state-sync` flow. -/
inductive AppliedOp where
  | userOp (op : LdapUserOpR)
  | groupOp (op : LdapGroupOpR)
  | fsOp (op : FsDirectoryOpR)
deriving DecidableEq

/-- main.py:117-127, the application stage of `sync_data`: the group,
user and file-system operation lists are each applied in full, in that
order; the `settings` operation filters are never consulted there. -/
def syncDataApplied (_settings : SettingsR) (ops : OperationsContainerR) :
    List AppliedOp :=
  ops.ldap_group_ops.map AppliedOp.groupOp ++
    ops.ldap_user_ops.map AppliedOp.userOp ++
    ops.fs_ops.map AppliedOp.fsOp

/-- Take one nonempty path segment (`[^/]+` followed by nothing or `/`). -/
def segTake (cs : List Char) : Option (List Char × List Char) :=
  let t := cs.takeWhile (fun c => c ≠ '/')
  if t.isEmpty then none else some (t, cs.drop t.length)

/-- Try constants.py `RE_PATH`
(`/(cephfs-[12])/([^/]+)/([^/]+)/([^/]+)`) anchored at the head of the
character list. -/
def tryRePath : List Char → Option (String × String × String × String)
  | '/' :: 'c' :: 'e' :: 'p' :: 'h' :: 'f' :: 's' :: '-' :: d :: '/' :: rest =>
    if d = '1' ∨ d = '2' then
      match segTake rest with
      | Option.none => none
      | some (sub, r1) =>
        match r1 with
        | '/' :: r2 =>
          match segTake r2 with
          | Option.none => none
          | some (ent, r3) =>
            match r3 with
            | '/' :: r4 =>
              match segTake r4 with
              | Option.none => none
              | some (nm, _) =>
                some (String.mk ['c', 'e', 'p', 'h', 'f', 's', '-', d],
                      String.mk sub, String.mk ent, String.mk nm)
            | _ => none
        | _ => none
    else none
  | _ => none

/-- `re.search` of `RE_PATH`: try the pattern at each successive start
position and return the leftmost match. -/
def searchRePath : List Char → Option (String × String × String × String)
  | [] => none
  | c :: rest =>
    match tryRePath (c :: rest) with
    | some r => some r
    | Option.none => searchRePath rest

/-- constants.py `PREFIX_MAPPING` lookup (only reached for the `groups`
and `projects` entities). -/
def entityPre (e : String) : Option String :=
  if e = "projects" then some PRJ_PRE
  else if e = "groups" then some AG_PRE
  else none

/-- constants.py `CEPHFS_TIER_MAPPING` as a lookup. -/
def cephfsTierMapping (tier subdir entity : String) : Option String :=
  if tier = "cephfs-1" ∧ subdir = "home" ∧ entity = "users" then some "tier1_home"
  else if tier = "cephfs-1" ∧ subdir = "work" ∧
      (entity = "projects" ∨ entity = "groups") then some "tier1_work"
  else if tier = "cephfs-1" ∧ subdir = "scratch" ∧
      (entity = "projects" ∨ entity = "groups") then some "tier1_scratch"
  else if tier = "cephfs-2" ∧ subdir = "unmirrored" ∧
      (entity = "projects" ∨ entity = "groups") then some "tier2_unmirrored"
  else if tier = "cephfs-2" ∧ subdir = "mirrored" ∧
      (entity = "projects" ∨ entity = "groups") then some "tier2_mirrored"
  else none

/-- states.py `fs_validation`: pattern-match the path, check the entity
kind, compare the entity name against the folder name, and resolve the
resource key; every failed check raises `ValueError` (`none`). -/
def fsValidation (fs : FsDirectoryR) : Option (String × String × String) :=
  match searchRePath fs.path.data with
  | Option.none => none
  | some (tier, subdir, entity, folderName) =>
    if entity = "users" ∨ entity = "groups" ∨ entity = "projects" then
      let entityName := if entity = "users" then fs.owner_name
                        else strip_pre fs.group_name (entityPre entity)
      if entityName = folderName then
        match cephfsTierMapping tier subdir entity with
        | Option.none => none
        | some resource => some (entity, folderName, resource)
      else none
    else none

/-- main.py:163: `d[...].resources_used[resource] = fs_data.rbytes / 1024**p`
for a user record; the subscript assignment requires the attribute to hold
the raw dict installed by the reset at main.py:145. -/
def setUsageU (m : PyDict HpcUserR) (uuid resource : String) (v : Rat) :
    Option (PyDict HpcUserR) :=
  match alookup m uuid with
  | Option.none => none
  | some r0 =>
    match r0.resources_used with
    | some (UsageVal.pydict d) =>
      some (dinsert m uuid
        { r0 with resources_used := some (UsageVal.pydict (dinsert d resource v)) })
    | _ => none

/-- Ditto for a group record. -/
def setUsageG (m : PyDict HpcGroupR) (uuid resource : String) (v : Rat) :
    Option (PyDict HpcGroupR) :=
  match alookup m uuid with
  | Option.none => none
  | some r0 =>
    match r0.resources_used with
    | some (UsageVal.pydict d) =>
      some (dinsert m uuid
        { r0 with resources_used := some (UsageVal.pydict (dinsert d resource v)) })
    | _ => none

/-- Ditto for a project record. -/
def setUsageP (m : PyDict HpcProjectR) (uuid resource : String) (v : Rat) :
    Option (PyDict HpcProjectR) :=
  match alookup m uuid with
  | Option.none => none
  | some r0 =>
    match r0.resources_used with
    | some (UsageVal.pydict d) =>
      some (dinsert m uuid
        { r0 with resources_used := some (UsageVal.pydict (dinsert d resource v)) })
    | _ => none

/-- main.py:149-163, the directory loop of `sync_storage_usage`: validate
each current directory, skip (with a warning) unmatched paths and names
absent from the registry, and fold `rbytes / 1024**p` into the resolved
record; `rbytes = None` makes the division raise (`none`). -/
def usageFold (userIdx groupIdx projIdx : PyDict String) :
    PyDict HpcUserR × PyDict HpcGroupR × PyDict HpcProjectR →
    List (String × FsDirectoryR) →
    Option (PyDict HpcUserR × PyDict HpcGroupR × PyDict HpcProjectR)
  | maps, [] => some maps
  | maps, (_, fs) :: rest =>
    match fsValidation fs with
    | Option.none => usageFold userIdx groupIdx projIdx maps rest
    | some (entity, name, resource) =>
      let idx := if entity = "users" then userIdx
                 else if entity = "groups" then groupIdx else projIdx
      match alookup idx name with
      | Option.none => usageFold userIdx groupIdx projIdx maps rest
      | some uuid =>
        match fs.rbytes with
        | Option.none => none
        | some rb =>
          let p : Nat := if entity = "users" then 3 else 4
          let v : Rat := qDivNat (mkRat rb 1) (1024 ^ p)
          if entity = "users" then
            match setUsageU maps.1 uuid resource v with
            | Option.none => none
            | some us => usageFold userIdx groupIdx projIdx (us, maps.2.1, maps.2.2) rest
          else if entity = "groups" then
            match setUsageG maps.2.1 uuid resource v with
            | Option.none => none
            | some gs => usageFold userIdx groupIdx projIdx (maps.1, gs, maps.2.2) rest
          else
            match setUsageP maps.2.2 uuid resource v with
            | Option.none => none
            | some ps => usageFold userIdx groupIdx projIdx (maps.1, maps.2.1, ps) rest

/-- main.py `sync_storage_usage` (the state transformation: reset every
record's `resources_used` to an empty dict while indexing records by name,
then fold the observed directory usage in; deployment back to the registry
sends the resulting records). -/
def syncStorageUsage (src : SystemStateR) (dst : HpcaccessStateR) :
    Option HpcaccessStateR :=
  let users1 := dst.hpc_users.map
    (fun kv => (kv.1, { kv.2 with resources_used := some (UsageVal.pydict []) }))
  let groups1 := dst.hpc_groups.map
    (fun kv => (kv.1, { kv.2 with resources_used := some (UsageVal.pydict []) }))
  let projects1 := dst.hpc_projects.map
    (fun kv => (kv.1, { kv.2 with resources_used := some (UsageVal.pydict []) }))
  let userIdx := users1.foldl (fun idx kv => dinsert idx kv.2.username kv.1) []
  let groupIdx := groups1.foldl (fun idx kv => dinsert idx kv.2.name kv.1) []
  let projIdx := projects1.foldl (fun idx kv => dinsert idx kv.2.name kv.1) []
  match usageFold userIdx groupIdx projIdx (users1, groups1, projects1)
      src.fs_directories with
  | Option.none => none
  | some (us, gs, ps) => some ⟨us, gs, ps⟩

/-- Concrete desired-state LDAP user for exercising the comparator. -/
def aliceUser : LdapUserR :=
  { cn := "Alice A", dn := "cn=Alice A," ++ BASE_DN_CHARITE, uid := "alice",
    mail := some "alice@example.org", sn := some "A", given_name := some "Alice",
    uid_number := 2000, gid_number := some 1000,
    home_directory := userHomePre ++ "alice", login_shell := "/usr/bin/bash",
    gecos := none, ssh_public_key := [] }

/-- Concrete directory pair for the group-gid diff: identical except for
`group_gid` (1000 versus 2000). -/
def dirGidA : FsDirectoryR :=
  { path := grpWorkPre ++ "foo", owner_name := "alice", owner_uid := 2000,
    group_name := "foo", group_gid := 1000, perms := "drwxrwS---",
    rbytes := none, rfiles := none,
    quota_bytes := some QUOTA_HOME_BYTES, quota_files := none }

/-- Same directory with the desired group gid 2000. -/
def dirGidB : FsDirectoryR := { dirGidA with group_gid := 2000 }

/-- `state-sync` settings restricting user operations to CREATE only. -/
def settingsOnlyCreate : SettingsR :=
  { ldap_user_ops := [StateOperation.CREATE], ldap_group_ops := defaultOps,
    fs_ops := defaultOps, dry_run := false }

/-- `state-sync` settings with the default (all three) filters. -/
def settingsAll : SettingsR :=
  { ldap_user_ops := defaultOps, ldap_group_ops := defaultOps,
    fs_ops := defaultOps, dry_run := false }

/-- A pending DISABLE user operation. -/
def disableAliceOp : LdapUserOpR :=
  { operation := StateOperation.DISABLE, user := aliceUser, diff := [] }

/-- An operations container holding only that DISABLE operation. -/
def opsDisableOnly : OperationsContainerR :=
  { ldap_user_ops := [disableAliceOp], ldap_group_ops := [], fs_ops := [] }

/-- Current system state for the gid-0 counterexample: one LDAP group with
gid 1500 makes the allocation counter start at 1501. -/
def cSt6 : SystemStateR :=
  { ldap_users := [],
    ldap_groups := [("hpc-ag-old",
      { cn := "hpc-ag-old", dn := "cn=hpc-ag-old," ++ BASE_DN_GROUPS,
        gid_number := 1500, description := none, owner_dn := none,
        delegate_dns := [], member_uids := [] })],
    fs_directories := [] }

/-- Registry owner record used by the builder fixtures. -/
def ownerUser : HpcUserR :=
  { primary_group := none, full_name := "Owner O", email := none,
    phone_number := none, uid := 2100, username := "owner",
    resources_used := none }

/-- A registry group whose recorded gid is the numeric value 0. -/
def groupGidZero : HpcGroupR :=
  { owner := "u1", description := none, delegate := none,
    resources_requested := none, resources_used := none,
    gid := some 0, name := "zerogrp" }

/-- Registry state containing that group. -/
def cHpc6 : HpcaccessStateR :=
  { hpc_users := [("u1", ownerUser)],
    hpc_groups := [("g1", groupGidZero)],
    hpc_projects := [] }

/-- The builder outcome on the gid-0 fixture. -/
def cRes6 : BuildGroupsRes :=
  (buildLdapGroups (getNextGid cSt6) cHpc6).getD ⟨[], [], [], 0⟩

/-- Current system state realizing the spec's id-allocation example: the
numeric ids present are 1000, 1005 and 1006. -/
def wSt6 : SystemStateR :=
  { ldap_users := [("u_a",
      { cn := "U A", dn := "cn=U A," ++ BASE_DN_CHARITE, uid := "u_a",
        mail := none, sn := none, given_name := none, uid_number := 1,
        gid_number := some 1005, home_directory := "/h", login_shell := "/usr/bin/bash",
        gecos := none, ssh_public_key := [] })],
    ldap_groups := [("hpc-ag-a",
      { cn := "hpc-ag-a", dn := "cn=hpc-ag-a," ++ BASE_DN_GROUPS,
        gid_number := 1000, description := none, owner_dn := none,
        delegate_dns := [], member_uids := [] }),
      ("hpc-ag-b",
      { cn := "hpc-ag-b", dn := "cn=hpc-ag-b," ++ BASE_DN_GROUPS,
        gid_number := 1006, description := none, owner_dn := none,
        delegate_dns := [], member_uids := [] })],
    fs_directories := [] }

/-- Registry state with two groups that still need numeric ids. -/
def wHpc6 : HpcaccessStateR :=
  { hpc_users := [("u1", ownerUser)],
    hpc_groups :=
      [("gA", { owner := "u1", description := none, delegate := none,
                resources_requested := none, resources_used := none,
                gid := none, name := "aaa" }),
       ("gB", { owner := "u1", description := none, delegate := none,
                resources_requested := none, resources_used := none,
                gid := none, name := "bbb" })],
    hpc_projects := [] }

/-- The builder outcome on the id-allocation example fixture. -/
def wRes6 : BuildGroupsRes :=
  (buildLdapGroups (getNextGid wSt6) wHpc6).getD ⟨[], [], [], 0⟩

/-- Registry group `alpha` (owner `u1`, gid 1000, nonzero tier-1 work and
scratch requests). -/
def groupAlpha : HpcGroupR :=
  { owner := "uu1", description := none, delegate := none,
    resources_requested := some { tier1_work := 1, tier1_scratch := 1 },
    resources_used := none, gid := some 1000, name := "alpha" }

/-- Registry project `beta`, owned by group `alpha`, with an allocated gid
and nonzero tier-1 requests. -/
def projectBeta : HpcProjectR :=
  { group := some "galpha", description := none, delegate := none,
    resources_requested := some { tier1_work := 1, tier1_scratch := 1 },
    resources_used := none, gid := some 2000, name := "beta" }

/-- Registry state with one user, the group `alpha` and the project
`beta`. -/
def st8 : HpcaccessStateR :=
  { hpc_users := [("uu1", ownerUser)],
    hpc_groups := [("galpha", groupAlpha)],
    hpc_projects := [("pbeta", projectBeta)] }

/-- The directories the builder derives from `st8`. -/
def dirs8 : PyDict FsDirectoryR := (buildFsDirectories st8).getD []

/-- The current tier-1 scratch directory of group `ag-foo` with five
tebibytes of observed usage. -/
def dirAgFoo : FsDirectoryR :=
  { path := "/data/cephfs-1/scratch/groups/ag-foo", owner_name := "owner",
    owner_uid := 2100, group_name := "ag-foo", group_gid := 3000,
    perms := "drwxrwS---", rbytes := some (5 * 1024 * 1024 * 1024 * 1024),
    rfiles := some 10, quota_bytes := some (10 * 1024 * 1024 * 1024 * 1024),
    quota_files := none }

/-- Current system state for the usage-fold scenario. -/
def src9 : SystemStateR :=
  { ldap_users := [], ldap_groups := [],
    fs_directories := [(dirAgFoo.path, dirAgFoo)] }

/-- Registry group `ag-foo` whose fetched usage already records seven
terabytes of tier-1 work. -/
def groupAgFoo : HpcGroupR :=
  { owner := "u1", description := none, delegate := none,
    resources_requested := none,
    resources_used := some (UsageVal.model
      { tier1_work := 7, tier1_scratch := 0, tier2_mirrored := 0,
        tier2_unmirrored := 0 }),
    gid := some 3000, name := "ag-foo" }

/-- Registry state for the usage-fold scenario. -/
def dst9 : HpcaccessStateR :=
  { hpc_users := [], hpc_groups := [("gu1", groupAgFoo)], hpc_projects := [] }

/-- The usage-sync outcome on that scenario. -/
def res9 : HpcaccessStateR := (syncStorageUsage src9 dst9).getD ⟨[], [], []⟩

/-- Character-level divergence: the two lists disagree at some position
inside their common span. -/
def strDiverge : List Char → List Char → Bool
  | x :: xs, y :: ys => if x = y then strDiverge xs ys else true
  | _, _ => false

/-- The five literal path heads of group storage directories. -/
def grpLits : List String := [grpHomePre, grpScratchPre, grpWorkPre, grpUnmPre, grpMirPre]

/-- The five literal path heads of project storage directories. -/
def prjLits : List String := [prjHomePre, prjScratchPre, prjWorkPre, prjUnmPre, prjMirPre]

/-- Registry group requesting 2.0 terabytes of tier-1 work storage. -/
def groupW7 : HpcGroupR :=
  { owner := "u1", description := none, delegate := none,
    resources_requested := some { tier1_work := 2, tier1_scratch := 1 },
    resources_used := none, gid := some 4000, name := "wg" }

/-- Registry state holding that group and its owner. -/
def st7 : HpcaccessStateR :=
  { hpc_users := [("u1", ownerUser)], hpc_groups := [("g7", groupW7)],
    hpc_projects := [] }

/-- The directories the builder derives from `st7`. -/
def dirs7 : PyDict FsDirectoryR := (buildFsDirectories st7).getD []

/-- A current directory with one tebibyte quota and some observed usage. -/
def dirUsage1 : FsDirectoryR :=
  { path := "/data/cephfs-1/scratch/groups/ag-x", owner_name := "o",
    owner_uid := 1, group_name := "ag-x", group_gid := 5,
    perms := "drwxrwS---", rbytes := some 1, rfiles := some 1,
    quota_bytes := some 100, quota_files := none }

/-- The same directory with different observed usage only. -/
def dirUsage2 : FsDirectoryR := { dirUsage1 with rbytes := some 99 }


/-- C1: evaluation of the user comparator at a state pair whose desired
state contains the user `alice` and whose current state does not: the
missing-key loop of `_compare_ldap_users` looks `alice` up in the current
(`src`) users (states.py:665) and raises `KeyError` instead of emitting a
CREATE operation carrying the desired entity, so the claimed behaviour
fails on a key present only in the desired state. -/
theorem C1_missing_user_raises : compareLdapUsers [] [("alice", aliceUser)] = none := by
  decide

/-- C3: two states sharing one directory path whose entities differ only
in `group_gid` (1000 currently, 2000 desired).  The comparator emits an
UPDATE operation whose diff is empty — the literal key tuple at
states.py:730 says `"owner_gid"`, which is not a `FsDirectory` field, so
a desired group-gid change never enters the diff, contradicting the
claimed allow-list behaviour. -/
theorem C3_group_gid_never_diffed :
    compareFsDirectories [(dirGidA.path, dirGidA)] [(dirGidA.path, dirGidB)] =
      some [⟨StateOperation.UPDATE, dirGidA, []⟩] := by
  decide

/-- C4: for every group operation and dry-run flag, the executor issues no
directory-service action at all: `apply_group_op` compares the operation
*object* with the `StateOperation` enum members (ldap.py:292-296), which
is always false across types, so the create/update handlers for groups are
never reached (and the create handler body is `pass` besides). -/
theorem C4_group_dispatch_never_fires (op : LdapGroupOpR) (dryRun : Bool) :
    applyGroupOpCmds op dryRun = [] := rfl

/-- C5: with the user-operation filter restricted to CREATE only, a
pending DISABLE user operation is applied anyway, and the applied sequence
is identical to the one under the default all-three configuration: the
application loops of `sync_data` (main.py:117-127) never consult the
configured operation subsets. -/
theorem C5_filters_ignored :
    StateOperation.DISABLE ∉ settingsOnlyCreate.ldap_user_ops ∧
    AppliedOp.userOp disableAliceOp ∈ syncDataApplied settingsOnlyCreate opsDisableOnly ∧
    syncDataApplied settingsOnlyCreate opsDisableOnly =
      syncDataApplied settingsAll opsDisableOnly := by
  refine ⟨by decide, ?_, rfl⟩
  simp [syncDataApplied, opsDisableOnly]

/-- C6 counterexample: a registry group whose recorded numeric gid is `0`
is not kept unchanged: `if not group.gid` (states.py:346) treats the
number 0 as unassigned, and with current ids {1500} the builder
reallocates the group's gid to 1501. -/
theorem C6_gid_zero_reassigned :
    groupGidZero.gid = some 0 ∧
    (buildLdapGroups (getNextGid cSt6) cHpc6).map
      (fun r => (alookup r.updGroups "g1").map (fun g => g.gid)) =
      some (some (some 1501)) := by
  constructor
  · rfl
  · decide

/-- C8: with registry group `alpha` (the last group iterated) and registry
project `beta`, every storage directory emitted for the project sits under
`.../projects/alpha` — the final path component and the `group_name` field
encode the *group's* name, not the project's own name `beta`, because
states.py:257 reads the leaked groups-loop variable `group.name`. -/
theorem C8_project_dirs_use_leaked_group_name :
    buildFsDirectories st8 = some dirs8 ∧
    (alookup dirs8 (prjWorkPre ++ "alpha")).map (fun d => d.group_name) =
      some "alpha" ∧
    alookup dirs8 (prjWorkPre ++ "beta") = none ∧
    alookup dirs8 (prjHomePre ++ "beta") = none ∧
    alookup dirs8 (prjScratchPre ++ "beta") = none := by
  refine ⟨by decide, by decide, by decide, by decide, by decide⟩

/-- C9 counterexample: the registry group `ag-foo` arrives with
`resources_used.tier1_work = 7.0`; after the usage-sync fold of the single
scratch directory, reading `tier1_work` on the resulting record gives
nothing — the flow reset `resources_used` to an empty dict (main.py:145)
before folding, so the other usage fields are not left untouched. -/
theorem C9_other_fields_cleared :
    usageLookup groupAgFoo.resources_used "tier1_work" = some 7 ∧
    syncStorageUsage src9 dst9 = some res9 ∧
    (alookup res9.hpc_groups "gu1").map
      (fun g => usageLookup g.resources_used "tier1_work") = some none := by
  refine ⟨by decide, by decide, by decide⟩

/-- C9 (amended): the observed 5·1024⁴ bytes of the tier-1 scratch
directory of group `ag-foo` fold to `tier1_scratch = 5.0` (bytes divided
by 2⁴⁰ for groups), and the record's `resources_used` afterwards is
exactly the one-entry dict installed by the flow — every other usage field
has been cleared by the reset, not preserved. -/
theorem C9_scratch_folds_to_five :
    syncStorageUsage src9 dst9 = some res9 ∧
    (alookup res9.hpc_groups "gu1").map (fun g => g.resources_used) =
      some (some (UsageVal.pydict [("tier1_scratch", 5)])) ∧
    (alookup res9.hpc_groups "gu1").map
      (fun g => usageLookup g.resources_used "tier1_scratch") =
      some (some 5) := by
  refine ⟨by decide, by decide, by decide⟩

/-- A key present in a dict has a binding. -/
theorem alookup_isSome_of_mem {α : Type} (m : PyDict α) (k : String)
    (h : k ∈ keysOf m) : ∃ v, alookup m k = some v := by
  induction m with
  | nil => simp [keysOf] at h
  | cons kv rest ih =>
    obtain ⟨k1, v1⟩ := kv
    by_cases hk : k1 = k
    · exact ⟨v1, by simp [alookup, hk]⟩
    · have : k ∈ keysOf rest := by
        simp [keysOf] at h
        rcases h with h | h
        · exact absurd h.symm hk
        · simpa [keysOf] using h
      obtain ⟨v, hv⟩ := ih this
      exact ⟨v, by simp [alookup, hk, hv]⟩

/-- Filtering a key list by non-membership in itself gives nothing. -/
theorem filter_not_mem_self (ks : List String) :
    (ks.filter fun k => !decide (k ∈ ks)) = [] := by
  rw [List.filter_eq_nil_iff]
  intro a ha
  simp [ha]

/-- The common-key loop of the comparator emits nothing when both states
are the same dict. -/
theorem updateLoop_self {α : Type} (dump : α → List (String × PyVal))
    (diffOf : α → α → List (String × PyVal)) (m : PyDict α) (ks : List String)
    (h : ∀ k ∈ ks, k ∈ keysOf m) : updateLoop dump diffOf m m ks = some [] := by
  induction ks with
  | nil => rfl
  | cons k ks ih =>
    obtain ⟨v, hv⟩ := alookup_isSome_of_mem m k (h k (by simp))
    have ih' := ih (fun k' hk' => h k' (List.mem_cons_of_mem _ hk'))
    simp [updateLoop, hv, ih']

/-- `_compare_ldap_users` on identical states emits no operations. -/
theorem compareLdapUsers_self (m : PyDict LdapUserR) :
    compareLdapUsers m m = some [] := by
  have h1 := filter_not_mem_self (keysOf m)
  have h2 : updateLoop ldapUserDump
      (fun a b => dictDiff (ldapUserDump a) (ldapUserDump b)) m m
      ((keysOf m).filter fun k => decide (k ∈ keysOf m)) = some [] :=
    updateLoop_self _ _ m _ (fun k hk => (List.mem_filter.mp hk).1)
  simp [compareLdapUsers, h1, h2, lookupAll]

/-- `_compare_ldap_groups` on identical states emits no operations. -/
theorem compareLdapGroups_self (m : PyDict LdapGroupR) :
    compareLdapGroups m m = some [] := by
  have h1 := filter_not_mem_self (keysOf m)
  have h2 : updateLoop ldapGroupDump
      (fun a b => dictDiff (ldapGroupDump a) (ldapGroupDump b)) m m
      ((keysOf m).filter fun k => decide (k ∈ keysOf m)) = some [] :=
    updateLoop_self _ _ m _ (fun k hk => (List.mem_filter.mp hk).1)
  simp [compareLdapGroups, h1, h2, lookupAll]

/-- `_compare_fs_directories` on identical states emits no operations. -/
theorem compareFsDirectories_self (m : PyDict FsDirectoryR) :
    compareFsDirectories m m = some [] := by
  have h1 := filter_not_mem_self (keysOf m)
  have h2 : updateLoop fsDirectoryDump fsDiff m m
      ((keysOf m).filter fun k => decide (k ∈ keysOf m)) = some [] :=
    updateLoop_self _ _ m _ (fun k hk => (List.mem_filter.mp hk).1)
  simp [compareFsDirectories, h1, h2, lookupAll]

/-- C2: for every `SystemState S`, running the comparator on the pair
`(S, S)` succeeds and yields an `OperationsContainer` whose user-, group-
and directory-operation lists are all empty. -/
theorem C2_compare_self_empty (S : SystemStateR) :
    runComparison S S = some ⟨[], [], []⟩ := by
  simp [runComparison, compareLdapUsers_self, compareLdapGroups_self,
    compareFsDirectories_self]

/-- The gid-assignment spine of the group pass: the updated records and
final counter, ignoring the LDAP-entry construction. -/
def gidSpineG (seed : Int) : List (String × HpcGroupR) → Int × List (String × HpcGroupR)
  | [] => (seed, [])
  | (k, g) :: rest =>
    let upd := if truthyOptInt g.gid then (g, seed)
               else ({ g with gid := some seed }, seed + 1)
    let r := gidSpineG upd.2 rest
    (r.1, (k, upd.1) :: r.2)

/-- The gid-assignment spine of the project pass. -/
def gidSpineP (seed : Int) : List (String × HpcProjectR) → Int × List (String × HpcProjectR)
  | [] => (seed, [])
  | (k, p) :: rest =>
    let upd := if truthyOptInt p.gid then (p, seed)
               else ({ p with gid := some seed }, seed + 1)
    let r := gidSpineP upd.2 rest
    (r.1, (k, upd.1) :: r.2)

theorem processGroups_spine (users : PyDict HpcUserR) :
    ∀ (gs : List (String × HpcGroupR)) (acc : PyDict LdapGroupR) (seed : Int)
      (out : Int × List (String × HpcGroupR) × PyDict LdapGroupR),
      processGroups users acc seed gs = some out →
      out.1 = (gidSpineG seed gs).1 ∧ out.2.1 = (gidSpineG seed gs).2 := by
  intro gs
  induction gs with
  | nil =>
    intro acc seed out h
    simp [processGroups] at h
    simp [← h, gidSpineG]
  | cons hd rest ih =>
    intro acc seed out h
    obtain ⟨k1, g1⟩ := hd
    rw [processGroups] at h
    dsimp only at h
    split at h
    · exact absurd h (by simp)
    · split at h
      · exact absurd h (by simp)
      · split at h
        · exact absurd h (by simp)
        · rename_i heq
          have hih := ih _ _ _ heq
          simp at h
          simp [← h, gidSpineG]
          exact ⟨hih.1, hih.2⟩
theorem keysOf_cons {α : Type} (k : String) (v : α) (rest : PyDict α) :
    keysOf ((k, v) :: rest) = k :: keysOf rest := rfl

theorem processProjects_spine (users : PyDict HpcUserR) (groups : PyDict HpcGroupR) :
    ∀ (ps : List (String × HpcProjectR)) (acc : PyDict LdapGroupR) (seed : Int)
      (out : Int × List (String × HpcProjectR) × PyDict LdapGroupR),
      processProjects users groups acc seed ps = some out →
      out.1 = (gidSpineP seed ps).1 ∧ out.2.1 = (gidSpineP seed ps).2 := by
  intro ps
  induction ps with
  | nil =>
    intro acc seed out h
    simp [processProjects] at h
    simp [← h, gidSpineP]
  | cons hd rest ih =>
    intro acc seed out h
    obtain ⟨k1, p1⟩ := hd
    rw [processProjects] at h
    dsimp only at h
    split at h
    · exact absurd h (by simp)
    · split at h
      · exact absurd h (by simp)
      · split at h
        · exact absurd h (by simp)
        · rename_i heq
          have hih := ih _ _ _ heq
          simp at h
          simp [← h, gidSpineP]
          exact ⟨hih.1, hih.2⟩

theorem gidSpineG_keep (gs : List (String × HpcGroupR)) :
    ∀ (seed : Int) (k : String) (g : HpcGroupR) (v : Int),
      (keysOf gs).Nodup → (k, g) ∈ gs → g.gid = some v → v ≠ 0 →
      alookup (gidSpineG seed gs).2 k = some g := by
  induction gs with
  | nil => intro seed k g v _ hmem; simp at hmem
  | cons hd rest ih =>
    intro seed k g v hnd hmem hg hv
    obtain ⟨k1, g1⟩ := hd
    rw [keysOf_cons] at hnd
    obtain ⟨hn1, hnd'⟩ := List.nodup_cons.mp hnd
    rcases List.mem_cons.mp hmem with hh | ht
    · have hk : k = k1 := congrArg Prod.fst hh
      have hgeq : g = g1 := congrArg Prod.snd hh
      subst hk; subst hgeq
      have htr : truthyOptInt g.gid = true := by simp [truthyOptInt, hg, hv]
      simp [gidSpineG, htr, alookup]
    · have hkmem : k ∈ keysOf rest := List.mem_map_of_mem Prod.fst ht
      have hk1 : ¬ k1 = k := fun e => hn1 (e ▸ hkmem)
      simp only [gidSpineG, alookup]
      rw [if_neg hk1]
      exact ih _ k g v hnd' ht hg hv

theorem gidSpineP_keep (ps : List (String × HpcProjectR)) :
    ∀ (seed : Int) (k : String) (p : HpcProjectR) (v : Int),
      (keysOf ps).Nodup → (k, p) ∈ ps → p.gid = some v → v ≠ 0 →
      alookup (gidSpineP seed ps).2 k = some p := by
  induction ps with
  | nil => intro seed k p v _ hmem; simp at hmem
  | cons hd rest ih =>
    intro seed k p v hnd hmem hg hv
    obtain ⟨k1, p1⟩ := hd
    rw [keysOf_cons] at hnd
    obtain ⟨hn1, hnd'⟩ := List.nodup_cons.mp hnd
    rcases List.mem_cons.mp hmem with hh | ht
    · have hk : k = k1 := congrArg Prod.fst hh
      have hgeq : p = p1 := congrArg Prod.snd hh
      subst hk; subst hgeq
      have htr : truthyOptInt p.gid = true := by simp [truthyOptInt, hg, hv]
      simp [gidSpineP, htr, alookup]
    · have hkmem : k ∈ keysOf rest := List.mem_map_of_mem Prod.fst ht
      have hk1 : ¬ k1 = k := fun e => hn1 (e ▸ hkmem)
      simp only [gidSpineP, alookup]
      rw [if_neg hk1]
      exact ih _ k p v hnd' ht hg hv
theorem intRange_succ (s : Int) (n : Nat) :
    intRange s (n + 1) = s :: intRange (s + 1) n := rfl

theorem intRange_append (s : Int) (m n : Nat) :
    intRange s m ++ intRange (s + m) n = intRange s (m + n) := by
  induction m generalizing s with
  | zero => simp [intRange]
  | succ m ih =>
    have hc : s + ((m + 1 : Nat) : Int) = (s + 1) + (m : Int) := by push_cast; ring
    calc intRange s (m + 1) ++ intRange (s + ((m + 1 : Nat) : Int)) n
        = s :: (intRange (s + 1) m ++ intRange ((s + 1) + (m : Int)) n) := by
          rw [hc, intRange_succ]; simp
      _ = s :: intRange (s + 1) (m + n) := by rw [ih]
      _ = intRange s ((m + 1) + n) := by rw [Nat.succ_add, intRange_succ]

theorem mem_intRange : ∀ (n : Nat) (s x : Int), x ∈ intRange s n → s ≤ x := by
  intro n
  induction n with
  | zero => intro s x h; simp [intRange] at h
  | succ n ih =>
    intro s x h
    rw [intRange_succ] at h
    rcases List.mem_cons.mp h with rfl | h
    · exact le_refl x
    · have := ih (s + 1) x h
      omega

theorem intRange_nodup : ∀ (n : Nat) (s : Int), (intRange s n).Nodup := by
  intro n
  induction n with
  | zero => intro s; simp [intRange]
  | succ n ih =>
    intro s
    rw [intRange_succ, List.nodup_cons]
    refine ⟨fun h => ?_, ih (s + 1)⟩
    have := mem_intRange _ _ _ h
    omega

theorem gidSpineG_range (gs : List (String × HpcGroupR)) :
    ∀ seed : Int,
      newGidsOfGroups gs (gidSpineG seed gs).2 = intRange seed (countNewGroups gs) ∧
      (gidSpineG seed gs).1 = seed + countNewGroups gs := by
  induction gs with
  | nil => intro seed; simp [gidSpineG, newGidsOfGroups, countNewGroups, intRange]
  | cons hd rest ih =>
    intro seed
    obtain ⟨k1, g1⟩ := hd
    by_cases htr : truthyOptInt g1.gid
    · have hih := ih seed
      constructor
      · simp [gidSpineG, htr, newGidsOfGroups, countNewGroups, List.filterMap_cons] at hih ⊢
        exact hih.1
      · simp [gidSpineG, htr, countNewGroups] at hih ⊢
        exact hih.2
    · have hih := ih (seed + 1)
      have hcount : countNewGroups ((k1, g1) :: rest) = countNewGroups rest + 1 := by
        simp [countNewGroups, List.filter, htr]
      constructor
      · simp [gidSpineG, htr, newGidsOfGroups, List.filterMap_cons, hcount,
          intRange_succ] at hih ⊢
        exact hih.1
      · simp [gidSpineG, htr, hcount] at hih ⊢
        rw [hih.2]
        ring
theorem gidSpineP_range (ps : List (String × HpcProjectR)) :
    ∀ seed : Int,
      newGidsOfProjects ps (gidSpineP seed ps).2 = intRange seed (countNewProjects ps) ∧
      (gidSpineP seed ps).1 = seed + countNewProjects ps := by
  induction ps with
  | nil => intro seed; simp [gidSpineP, newGidsOfProjects, countNewProjects, intRange]
  | cons hd rest ih =>
    intro seed
    obtain ⟨k1, p1⟩ := hd
    by_cases htr : truthyOptInt p1.gid
    · have hih := ih seed
      constructor
      · simp [gidSpineP, htr, newGidsOfProjects, countNewProjects, List.filterMap_cons] at hih ⊢
        exact hih.1
      · simp [gidSpineP, htr, countNewProjects] at hih ⊢
        exact hih.2
    · have hih := ih (seed + 1)
      have hcount : countNewProjects ((k1, p1) :: rest) = countNewProjects rest + 1 := by
        simp [countNewProjects, List.filter, htr]
      constructor
      · simp [gidSpineP, htr, newGidsOfProjects, List.filterMap_cons, hcount,
          intRange_succ] at hih ⊢
        exact hih.1
      · simp [gidSpineP, htr, hcount] at hih ⊢
        rw [hih.2]
        ring

theorem foldl_max_le_self (xs : List Int) : ∀ x : Int, x ≤ xs.foldl max x := by
  induction xs with
  | nil => intro x; simp
  | cons y ys ih =>
    intro x
    calc x ≤ max x y := le_max_left x y
      _ ≤ ys.foldl max (max x y) := ih (max x y)
      _ = ((y :: ys).foldl max x) := rfl

theorem foldl_max_le_mem (xs : List Int) :
    ∀ (x z : Int), z ∈ xs → z ≤ xs.foldl max x := by
  induction xs with
  | nil => intro x z h; simp at h
  | cons y ys ih =>
    intro x z h
    rcases List.mem_cons.mp h with rfl | h
    · calc z ≤ max x z := le_max_right x z
        _ ≤ ys.foldl max (max x z) := foldl_max_le_self ys (max x z)
        _ = ((z :: ys).foldl max x) := rfl
    · exact ih (max x y) z h

theorem foldl_max_cases (xs : List Int) :
    ∀ x : Int, xs.foldl max x = x ∨ xs.foldl max x ∈ xs := by
  induction xs with
  | nil => intro x; simp
  | cons y ys ih =>
    intro x
    have : (y :: ys).foldl max x = ys.foldl max (max x y) := rfl
    rw [this]
    rcases ih (max x y) with h | h
    · rcases max_choice x y with hm | hm
      · left; rw [h, hm]
      · right; rw [h, hm]; exact List.mem_cons_self y ys
    · right; exact List.mem_cons_of_mem y h

theorem getNextGid_spec (st : SystemStateR) :
    (gidPool st = [] → getNextGid st = 1000) ∧
    (∀ x ∈ gidPool st, x < getNextGid st) ∧
    (gidPool st ≠ [] → getNextGid st - 1 ∈ gidPool st) := by
  refine ⟨fun h => by simp [getNextGid, h], ?_, ?_⟩
  · intro x hx
    cases hp : gidPool st with
    | nil => rw [hp] at hx; simp at hx
    | cons y ys =>
      have hg : getNextGid st = ys.foldl max y + 1 := by rw [getNextGid, hp]
      rw [hg]
      rw [hp] at hx
      rcases List.mem_cons.mp hx with rfl | hx
      · have := foldl_max_le_self ys x
        omega
      · have := foldl_max_le_mem ys y x hx
        omega
  · intro h
    cases hp : gidPool st with
    | nil => exact absurd hp h
    | cons y ys =>
      have hg : getNextGid st = ys.foldl max y + 1 := by rw [getNextGid, hp]
      simp only [hg, hp]
      have : ys.foldl max y + 1 - 1 = ys.foldl max y := by omega
      rw [this]
      rcases foldl_max_cases ys y with hc | hc
      · rw [hc]; exact List.mem_cons_self y ys
      · exact List.mem_cons_of_mem y hc
/-- C6 (amended): for every run of `_build_ldap_groups` seeded by
`_get_next_gid`, (i) every registry group and project whose recorded gid
is a *nonzero* number keeps its record unchanged (a gid of 0 is treated as
unassigned by `if not group.gid` and is reallocated — see the
counterexample), (ii) the freshly allocated gids are exactly the
consecutive integers starting at the seed, one per record lacking a truthy
gid, hence pairwise distinct across groups and projects within one run,
and (iii) the seed is 1000 when the current state has no numeric ids and
`max(ids) + 1` otherwise. -/
theorem C6_gid_allocation (st : SystemStateR) (hpc : HpcaccessStateR)
    (res : BuildGroupsRes)
    (h : buildLdapGroups (getNextGid st) hpc = some res)
    (hg : (keysOf hpc.hpc_groups).Nodup)
    (hp : (keysOf hpc.hpc_projects).Nodup) :
    (∀ k g v, (k, g) ∈ hpc.hpc_groups → g.gid = some v → v ≠ 0 →
      alookup res.updGroups k = some g) ∧
    (∀ k p v, (k, p) ∈ hpc.hpc_projects → p.gid = some v → v ≠ 0 →
      alookup res.updProjects k = some p) ∧
    newGids hpc res =
      intRange (getNextGid st)
        (countNewGroups hpc.hpc_groups + countNewProjects hpc.hpc_projects) ∧
    (newGids hpc res).Nodup ∧
    (gidPool st = [] → getNextGid st = 1000) ∧
    (∀ x ∈ gidPool st, x < getNextGid st) ∧
    (gidPool st ≠ [] → getNextGid st - 1 ∈ gidPool st) := by
  rw [buildLdapGroups] at h
  split at h
  · simp at h
  · rename_i ng1 updG ldapG heq1
    split at h
    · simp at h
    · rename_i ng2 updP ldapGP heq2
      simp at h
      have hs1 := processGroups_spine hpc.hpc_users hpc.hpc_groups [] (getNextGid st) _ heq1
      have hs2 := processProjects_spine hpc.hpc_users updG hpc.hpc_projects ldapG ng1 _ heq2
      have hupdG : res.updGroups = (gidSpineG (getNextGid st) hpc.hpc_groups).2 := by
        rw [← h]
        exact hs1.2
      have hng1 : ng1 = (gidSpineG (getNextGid st) hpc.hpc_groups).1 := hs1.1
      have hupdP : res.updProjects = (gidSpineP ng1 hpc.hpc_projects).2 := by
        rw [← h]
        exact hs2.2
      have hrg := gidSpineG_range hpc.hpc_groups (getNextGid st)
      have hrp := gidSpineP_range hpc.hpc_projects ng1
      have hseed : ng1 = getNextGid st + countNewGroups hpc.hpc_groups := by
        rw [hng1, hrg.2]
      have hran : newGids hpc res =
          intRange (getNextGid st)
            (countNewGroups hpc.hpc_groups + countNewProjects hpc.hpc_projects) := by
        rw [newGids, hupdG, hupdP, hrg.1, hrp.1, hseed, intRange_append]
      refine ⟨?_, ?_, hran, ?_, (getNextGid_spec st).1, (getNextGid_spec st).2.1,
        (getNextGid_spec st).2.2⟩
      · intro k g v hmem hgv hv
        rw [hupdG]
        exact gidSpineG_keep hpc.hpc_groups _ k g v hg hmem hgv hv
      · intro k p v hmem hgv hv
        rw [hupdP]
        exact gidSpineP_keep hpc.hpc_projects _ k p v hp hmem hgv hv
      · rw [hran]
        exact intRange_nodup _ _

/-- C6 witness: with current numeric ids {1000, 1005, 1006} and two
registry groups lacking ids, the builder assigns exactly 1007 and 1008. -/
theorem C6_gid_allocation_witness :
    buildLdapGroups (getNextGid wSt6) wHpc6 = some wRes6 ∧
    newGids wHpc6 wRes6 = [1007, 1008] := by
  have hb : buildLdapGroups (getNextGid wSt6) wHpc6 = some wRes6 := by decide
  refine ⟨hb, ?_⟩
  have h := C6_gid_allocation wSt6 wHpc6 wRes6 hb (by decide) (by decide)
  rw [h.2.2.1]
  decide

theorem alookup_some_mem {α : Type} : ∀ (m : PyDict α) (k : String) (v : α),
    alookup m k = some v → (k, v) ∈ m := by
  intro m
  induction m with
  | nil => intro k v h; simp [alookup] at h
  | cons kv rest ih =>
    intro k v h
    obtain ⟨k1, v1⟩ := kv
    by_cases hk : k1 = k
    · subst hk
      simp [alookup] at h
      simp [h]
    · rw [alookup, if_neg hk] at h
      exact List.mem_cons_of_mem _ (ih k v h)

theorem alookup_some_mem_keys {α : Type} (m : PyDict α) (k : String) (v : α)
    (h : alookup m k = some v) : k ∈ keysOf m :=
  List.mem_map_of_mem Prod.fst (alookup_some_mem m k v h)

theorem optIntVal_eq_iff (a b : Option Int) : optIntVal a = optIntVal b ↔ a = b := by
  cases a <;> cases b <;> simp [optIntVal]

theorem optStrVal_eq_iff (a b : Option String) : optStrVal a = optStrVal b ↔ a = b := by
  cases a <;> cases b <;> simp [optStrVal]

theorem fsDirectoryDump_inj {d1 d2 : FsDirectoryR}
    (h : fsDirectoryDump d1 = fsDirectoryDump d2) : d1 = d2 := by
  cases d1
  cases d2
  simp [fsDirectoryDump, optIntVal_eq_iff] at h
  simp [h]

theorem optGet_dump_owner_uid (d : FsDirectoryR) :
    optGet (fsDirectoryDump d) "owner_uid" = PyVal.int d.owner_uid := rfl

theorem optGet_dump_owner_gid (d : FsDirectoryR) :
    optGet (fsDirectoryDump d) "owner_gid" = PyVal.none := rfl

theorem optGet_dump_perms (d : FsDirectoryR) :
    optGet (fsDirectoryDump d) "perms" = PyVal.str d.perms := rfl

theorem optGet_dump_quota_bytes (d : FsDirectoryR) :
    optGet (fsDirectoryDump d) "quota_bytes" = optIntVal d.quota_bytes := rfl

theorem optGet_dump_quota_files (d : FsDirectoryR) :
    optGet (fsDirectoryDump d) "quota_files" = optIntVal d.quota_files := rfl

theorem fsDiff_eq_nil {d1 d2 : FsDirectoryR}
    (hou : d1.owner_uid = d2.owner_uid) (hpm : d1.perms = d2.perms)
    (hqb : d1.quota_bytes = d2.quota_bytes) (hqf : d1.quota_files = d2.quota_files) :
    fsDiff d1 d2 = [] := by
  simp [fsDiff, fsAllowKeys, List.filterMap_cons, optGet_dump_owner_uid,
    optGet_dump_owner_gid, optGet_dump_perms, optGet_dump_quota_bytes,
    optGet_dump_quota_files, hou, hpm, hqb, hqf]
theorem lookupAll_exists {α : Type} (m : PyDict α) :
    ∀ ks : List String, (∀ k ∈ ks, k ∈ keysOf m) →
    ∃ vs, lookupAll m ks = some vs ∧
      ∀ v ∈ vs, ∃ k ∈ ks, alookup m k = some v := by
  intro ks
  induction ks with
  | nil => intro _; exact ⟨[], rfl, by simp⟩
  | cons k ks ih =>
    intro h
    obtain ⟨v, hv⟩ := alookup_isSome_of_mem m k (h k (by simp))
    obtain ⟨vs, hvs, hall⟩ := ih (fun k' hk' => h k' (List.mem_cons_of_mem _ hk'))
    refine ⟨v :: vs, by simp [lookupAll, hv, hvs], ?_⟩
    intro w hw
    rcases List.mem_cons.mp hw with rfl | hw
    · exact ⟨k, by simp, hv⟩
    · obtain ⟨k', hk', hl⟩ := hall w hw
      exact ⟨k', List.mem_cons_of_mem _ hk', hl⟩

theorem updateLoopFs_exists (src dst : PyDict FsDirectoryR) (p : String)
    (d1 d2 : FsDirectoryR)
    (hpk1 : ∀ kv ∈ src, (kv.2 : FsDirectoryR).path = kv.1)
    (h1 : alookup src p = some d1) (h2 : alookup dst p = some d2)
    (hne : d1 ≠ d2) :
    ∀ ks : List String, ks.Nodup → (∀ k ∈ ks, k ∈ keysOf src ∧ k ∈ keysOf dst) →
    ∃ us, updateLoop fsDirectoryDump fsDiff src dst ks = some us ∧
      us.filter (fun x => x.1.path == p) =
        (if p ∈ ks then [(d1, fsDiff d1 d2)] else []) := by
  intro ks
  induction ks with
  | nil => intro _ _; exact ⟨[], rfl, by simp⟩
  | cons k ks ih =>
    intro hnd hmem
    obtain ⟨hk1, hnd'⟩ := List.nodup_cons.mp hnd
    obtain ⟨us, hus, hfil⟩ := ih hnd' (fun k' hk' => hmem k' (List.mem_cons_of_mem _ hk'))
    by_cases hkp : k = p
    · subst hkp
      have hd1p : d1.path = k := hpk1 _ (alookup_some_mem src k d1 h1)
      have hdump : fsDirectoryDump d1 ≠ fsDirectoryDump d2 :=
        fun e => hne (fsDirectoryDump_inj e)
      refine ⟨(d1, fsDiff d1 d2) :: us, ?_, ?_⟩
      · simp [updateLoop, h1, h2, hus, hdump]
      · rw [List.filter_cons]
        simp only [hd1p]
        simp [hfil, hk1]
    · obtain ⟨v, hv⟩ := alookup_isSome_of_mem src k (hmem k (by simp)).1
      obtain ⟨w, hw⟩ := alookup_isSome_of_mem dst k (hmem k (by simp)).2
      have hvp : v.path = k := hpk1 _ (alookup_some_mem src k v hv)
      have hpne : ¬ (v.path == p) = true := by
        simp [hvp]
        exact hkp
      have hpk : ¬ p = k := fun e => hkp e.symm
      by_cases hd : fsDirectoryDump v ≠ fsDirectoryDump w
      · refine ⟨(v, fsDiff v w) :: us, by simp [updateLoop, hv, hw, hus, hd], ?_⟩
        rw [List.filter_cons]
        simp only [hpne]
        simp [hfil, hpk]
      · refine ⟨us, ?_, by simp [hfil, hpk]⟩
        simp at hd
        simp [updateLoop, hv, hw, hus, hd]
/-- C10: for any two states sharing a directory path whose current and
desired entities differ, but agree on every field of the comparator's
literal key tuple (`owner_uid`, the nonexistent `owner_gid`, `perms`,
`quota_bytes`, `quota_files`) — for example when only observed usage or
naming fields differ — the comparator emits exactly one operation for that
path, an UPDATE with an *empty* diff mapping, and applying that operation
in the executor issues no command at all. -/
theorem C10_update_with_empty_diff (src dst : PyDict FsDirectoryR) (p : String)
    (d1 d2 : FsDirectoryR)
    (hn1 : (keysOf src).Nodup)
    (hpk1 : ∀ kv ∈ src, (kv.2 : FsDirectoryR).path = kv.1)
    (hpk2 : ∀ kv ∈ dst, (kv.2 : FsDirectoryR).path = kv.1)
    (h1 : alookup src p = some d1) (h2 : alookup dst p = some d2)
    (hou : d1.owner_uid = d2.owner_uid) (_hgg : d1.group_gid = d2.group_gid)
    (hpm : d1.perms = d2.perms) (hqb : d1.quota_bytes = d2.quota_bytes)
    (hqf : d1.quota_files = d2.quota_files) (hne : d1 ≠ d2) :
    ∃ ops, compareFsDirectories src dst = some ops ∧
      ops.filter (fun op => op.directory.path == p) =
        [⟨StateOperation.UPDATE, d1, []⟩] ∧
      applyFsOpCmds ⟨StateOperation.UPDATE, d1, []⟩ = some [] := by
  have hpd1 : p ∈ keysOf src := alookup_some_mem_keys _ _ _ h1
  have hpd2 : p ∈ keysOf dst := alookup_some_mem_keys _ _ _ h2
  obtain ⟨dis, hdis, hdismem⟩ := lookupAll_exists src
    ((keysOf src).filter (fun k => decide (k ∉ keysOf dst)))
    (fun k hk => (List.mem_filter.mp hk).1)
  obtain ⟨cre, hcre, hcremem⟩ := lookupAll_exists dst
    ((keysOf dst).filter (fun k => decide (k ∉ keysOf src)))
    (fun k hk => (List.mem_filter.mp hk).1)
  have hcomNodup : ((keysOf src).filter (fun k => decide (k ∈ keysOf dst))).Nodup :=
    hn1.filter _
  have hkmem : ∀ k ∈ (keysOf src).filter (fun k => decide (k ∈ keysOf dst)),
      k ∈ keysOf src ∧ k ∈ keysOf dst := by
    intro k hk
    have := List.mem_filter.mp hk
    exact ⟨this.1, by simpa using this.2⟩
  have hpcom : p ∈ (keysOf src).filter (fun k => decide (k ∈ keysOf dst)) :=
    List.mem_filter.mpr ⟨hpd1, by simpa using hpd2⟩
  obtain ⟨us, hus, hufil⟩ := updateLoopFs_exists src dst p d1 d2 hpk1 h1 h2 hne
    ((keysOf src).filter (fun k => decide (k ∈ keysOf dst))) hcomNodup hkmem
  refine ⟨dis.map (fun d => ⟨StateOperation.DISABLE, d, []⟩) ++
          cre.map (fun d => ⟨StateOperation.CREATE, d, []⟩) ++
          us.map (fun x => ⟨StateOperation.UPDATE, x.1, x.2⟩), ?_, ?_, rfl⟩
  · simp only [compareFsDirectories]
    rw [hdis, hcre, hus]
  · rw [List.filter_append, List.filter_append]
    have e1 : (dis.map (fun d => (⟨StateOperation.DISABLE, d, []⟩ : FsDirectoryOpR))).filter
        (fun op => op.directory.path == p) = [] := by
      rw [List.filter_eq_nil_iff]
      intro op hop
      obtain ⟨d, hd, rfl⟩ := List.mem_map.mp hop
      obtain ⟨k, hk, hl⟩ := hdismem d hd
      have hdp : d.path = k := hpk1 _ (alookup_some_mem src k d hl)
      have hknot : k ∉ keysOf dst := by simpa using (List.mem_filter.mp hk).2
      simp [hdp]
      intro e
      exact hknot (e ▸ hpd2)
    have e2 : (cre.map (fun d => (⟨StateOperation.CREATE, d, []⟩ : FsDirectoryOpR))).filter
        (fun op => op.directory.path == p) = [] := by
      rw [List.filter_eq_nil_iff]
      intro op hop
      obtain ⟨d, hd, rfl⟩ := List.mem_map.mp hop
      obtain ⟨k, hk, hl⟩ := hcremem d hd
      have hdp : d.path = k := hpk2 _ (alookup_some_mem dst k d hl)
      have hknot : k ∉ keysOf src := by simpa using (List.mem_filter.mp hk).2
      simp [hdp]
      intro e
      exact hknot (e ▸ hpd1)
    have e3 : (us.map (fun x => (⟨StateOperation.UPDATE, x.1, x.2⟩ : FsDirectoryOpR))).filter
        (fun op => op.directory.path == p) = [⟨StateOperation.UPDATE, d1, []⟩] := by
      rw [List.filter_map]
      have : ((fun op => op.directory.path == p) ∘
          (fun x : FsDirectoryR × List (String × PyVal) =>
            (⟨StateOperation.UPDATE, x.1, x.2⟩ : FsDirectoryOpR))) =
          (fun x : FsDirectoryR × List (String × PyVal) => x.1.path == p) := rfl
      rw [this, hufil, if_pos hpcom]
      simp [fsDiff_eq_nil hou hpm hqb hqf]
    rw [e1, e2, e3]
    simp
theorem append_ne_of_strDiverge :
    ∀ (a b : List Char), strDiverge a b = true →
      ∀ (s t : List Char), a ++ s ≠ b ++ t := by
  intro a
  induction a with
  | nil => intro b h; simp [strDiverge] at h
  | cons x xs ih =>
    intro b h s t
    cases b with
    | nil => simp [strDiverge] at h
    | cons y ys =>
      rw [strDiverge] at h
      by_cases hxy : x = y
      · rw [if_pos hxy] at h
        subst hxy
        intro e
        simp at e
        exact ih ys h s t e
      · intro e
        simp at e
        exact hxy e.1

/-- Two literal-headed paths with diverging heads differ for all tails. -/
theorem str_append_ne_of_diverge (l1 l2 : String)
    (h : strDiverge l1.data l2.data = true) (n1 n2 : String) :
    l1 ++ n1 ≠ l2 ++ n2 := by
  intro e
  have : (l1 ++ n1).data = (l2 ++ n2).data := by rw [e]
  rw [String.data_append, String.data_append] at this
  exact append_ne_of_strDiverge l1.data l2.data h n1.data n2.data this

/-- Same literal head, different tails: the paths differ. -/
theorem str_append_right_ne (l : String) {n1 n2 : String} (h : n1 ≠ n2) :
    l ++ n1 ≠ l ++ n2 := by
  intro e
  apply h
  have : (l ++ n1).data = (l ++ n2).data := by rw [e]
  rw [String.data_append, String.data_append] at this
  have := List.append_cancel_left this
  exact String.ext this

theorem dinsert_lookup_self {α : Type} (m : PyDict α) (k : String) (v : α) :
    alookup (dinsert m k v) k = some v := by
  induction m with
  | nil => simp [dinsert, alookup]
  | cons kv rest ih =>
    obtain ⟨k1, v1⟩ := kv
    by_cases hk : k1 = k
    · subst hk
      simp [dinsert, alookup]
    · simp [dinsert, hk, alookup, ih]

theorem dinsert_lookup_ne {α : Type} (m : PyDict α) (k' k : String) (v : α)
    (h : k' ≠ k) : alookup (dinsert m k' v) k = alookup m k := by
  induction m with
  | nil => simp [dinsert, alookup, h]
  | cons kv rest ih =>
    obtain ⟨k1, v1⟩ := kv
    by_cases hk : k1 = k'
    · subst hk
      simp [dinsert, alookup, h]
    · simp only [dinsert, if_neg hk]
      by_cases hk2 : k1 = k
      · simp [alookup, hk2]
      · simp [alookup, hk2, ih]

theorem dinsertAll_lookup_notin {α : Type} (es : List (String × α)) :
    ∀ (m : PyDict α) (k : String), (∀ e ∈ es, (e : String × α).1 ≠ k) →
    alookup (dinsertAll m es) k = alookup m k := by
  induction es with
  | nil => intro m k _; rfl
  | cons e rest ih =>
    intro m k h
    obtain ⟨k1, v1⟩ := e
    have h1 : k1 ≠ k := h (k1, v1) (by simp)
    have : dinsertAll m ((k1, v1) :: rest) = dinsertAll (dinsert m k1 v1) rest := rfl
    rw [this, ih _ k (fun e he => h e (List.mem_cons_of_mem _ he))]
    exact dinsert_lookup_ne m k1 k v1 h1
theorem groupDirEntries_keys (owner : HpcUserR) (g : HpcGroupR)
    (es : List (String × FsDirectoryR)) (h : groupDirEntries owner g = some es) :
    ∀ e ∈ es, ∃ lit ∈ grpLits,
      (e : String × FsDirectoryR).1 = lit ++ strip_pre g.name (some AG_PRE) := by
  intro e he
  rw [groupDirEntries] at h
  cases hrr : g.resources_requested with
  | none => rw [hrr] at h; simp at h
  | some rr =>
    rw [hrr] at h
    dsimp only at h
    by_cases hw : truthyRat rr.tier1_work
    · rw [if_neg (by simp [hw])] at h
      by_cases hs : truthyRat rr.tier1_scratch
      · rw [if_neg (by simp [hs])] at h
        have hes := Option.some.inj h
        subst hes
        rcases List.mem_append.mp he with h3 | h4
        · simp only [List.mem_cons, List.not_mem_nil, or_false] at h3
          rcases h3 with rfl | rfl | rfl <;> simp [grpLits]
        · rcases List.mem_append.mp h4 with h5 | h5 <;>
          · split at h5
            · simp only [List.mem_singleton] at h5
              subst h5
              simp [grpLits]
            · simp at h5
      · rw [if_pos (by simp [hs])] at h
        have hes := Option.some.inj h
        rw [← hes] at he
        simp at he
    · rw [if_pos (by simp [hw])] at h
      have hes := Option.some.inj h
      rw [← hes] at he
      simp at he
theorem projectDirEntries_keys (owner : HpcUserR) (pname : String) (p : HpcProjectR)
    (es : List (String × FsDirectoryR)) (h : projectDirEntries owner pname p = some es) :
    ∀ e ∈ es, ∃ lit ∈ prjLits, (e : String × FsDirectoryR).1 = lit ++ pname := by
  intro e he
  rw [projectDirEntries] at h
  cases hrr : p.resources_requested with
  | none => rw [hrr] at h; simp at h
  | some rr =>
    rw [hrr] at h
    dsimp only at h
    by_cases hw : truthyRat rr.tier1_work
    · rw [if_neg (by simp [hw])] at h
      by_cases hs : truthyRat rr.tier1_scratch
      · rw [if_neg (by simp [hs])] at h
        have hes := Option.some.inj h
        subst hes
        rcases List.mem_append.mp he with h3 | h4
        · simp only [List.mem_cons, List.not_mem_nil, or_false] at h3
          rcases h3 with rfl | rfl | rfl <;> simp [prjLits]
        · rcases List.mem_append.mp h4 with h5 | h5 <;>
          · split at h5
            · simp only [List.mem_singleton] at h5
              subst h5
              simp [prjLits]
            · simp at h5
      · rw [if_pos (by simp [hs])] at h
        have hes := Option.some.inj h
        rw [← hes] at he
        simp at he
    · rw [if_pos (by simp [hw])] at h
      have hes := Option.some.inj h
      rw [← hes] at he
      simp at he

theorem grpLits_diverge :
    ∀ l1 ∈ grpLits, ∀ l2 ∈ grpLits, l1 ≠ l2 → strDiverge l1.data l2.data = true := by
  decide

theorem grp_prj_diverge :
    ∀ lg ∈ grpLits, ∀ lp ∈ prjLits, strDiverge lg.data lp.data = true := by
  decide

theorem user_grp_diverge :
    ∀ lg ∈ grpLits, strDiverge userHomePre.data lg.data = true := by
  decide

theorem userDirs_frame (groups : PyDict HpcGroupR) :
    ∀ (us : List (String × HpcUserR)) (acc r : PyDict FsDirectoryR),
      userDirs groups acc us = some r →
      ∀ key, (∀ n, key ≠ userHomePre ++ n) → alookup r key = alookup acc key := by
  intro us
  induction us with
  | nil =>
    intro acc r h key _
    simp [userDirs] at h
    rw [h]
  | cons hd rest ih =>
    intro acc r h key hkey
    obtain ⟨k1, user⟩ := hd
    rw [userDirs] at h
    dsimp only at h
    split at h
    · simp at h
    all_goals
      rw [ih _ _ h key hkey]
      exact dinsert_lookup_ne _ _ _ _ (fun e => hkey user.username e.symm)
theorem groupDirsLoop_frame (users : PyDict HpcUserR) :
    ∀ (gs : List (String × HpcGroupR)) (acc : PyDict FsDirectoryR)
      (last : Option HpcGroupR) (r2 : PyDict FsDirectoryR) (lg : Option HpcGroupR),
      groupDirsLoop users acc last gs = some (r2, lg) →
      ∀ key, (∀ kv ∈ gs, ∀ lit ∈ grpLits,
        key ≠ lit ++ strip_pre (kv.2 : HpcGroupR).name (some AG_PRE)) →
      alookup r2 key = alookup acc key := by
  intro gs
  induction gs with
  | nil =>
    intro acc last r2 lg h key _
    simp [groupDirsLoop] at h
    rw [h.1]
  | cons hd rest ih =>
    intro acc last r2 lg h key hkey
    obtain ⟨k1, g1⟩ := hd
    rw [groupDirsLoop] at h
    split at h
    · exact ih _ _ _ _ h key
        (fun kv hkv => hkey kv (List.mem_cons_of_mem _ hkv))
    · split at h
      · simp at h
      · rename_i owner howner
        split at h
        · simp at h
        · rename_i es hes
          rw [ih _ _ _ _ h key (fun kv hkv => hkey kv (List.mem_cons_of_mem _ hkv))]
          apply dinsertAll_lookup_notin
          intro e he
          obtain ⟨lit, hlit, hekey⟩ := groupDirEntries_keys owner g1 es hes e he
          rw [hekey]
          exact fun ee => hkey (k1, g1) (by simp) lit hlit ee.symm

theorem projectDirsLoop_frame (st : HpcaccessStateR) (lastGroup : Option HpcGroupR) :
    ∀ (ps : List (String × HpcProjectR)) (acc r3 : PyDict FsDirectoryR),
      projectDirsLoop st lastGroup acc ps = some r3 →
      ∀ key, (∀ n : String, ∀ lit ∈ prjLits, key ≠ lit ++ n) →
      alookup r3 key = alookup acc key := by
  intro ps
  induction ps with
  | nil =>
    intro acc r3 h key _
    simp [projectDirsLoop] at h
    rw [h]
  | cons hd rest ih =>
    intro acc r3 h key hkey
    obtain ⟨k1, p1⟩ := hd
    rw [projectDirsLoop] at h
    split at h
    · exact ih _ _ h key hkey
    · split at h
      · exact ih _ _ h key hkey
      · split at h
        · simp at h
        · rename_i owningGroup hog
          split at h
          · simp at h
          · rename_i owner hown
            split at h
            · simp at h
            · rename_i leakedOpt leaked
              dsimp only at h
              split at h
              · simp at h
              · rename_i es hes
                rw [ih _ _ h key hkey]
                apply dinsertAll_lookup_notin
                intro e he
                obtain ⟨lit, hlit, hekey⟩ :=
                  projectDirEntries_keys owner (strip_pre leaked.name (some PRJ_PRE)) p1 es hes e he
                rw [hekey]
                exact fun ee => hkey (strip_pre leaked.name (some PRJ_PRE)) lit hlit ee.symm
theorem grp_key_ne (tlit : String) (htl : tlit ∈ grpLits) (n1 n2 : String)
    (hn : n1 ≠ n2) : ∀ lit ∈ grpLits, tlit ++ n1 ≠ lit ++ n2 := by
  intro lit hlit
  by_cases he : tlit = lit
  · subst he
    exact str_append_right_ne _ hn
  · exact str_append_ne_of_diverge _ _ (grpLits_diverge tlit htl lit hlit he) _ _

theorem dinsertAll_append {α : Type} (m : PyDict α) (a b : List (String × α)) :
    dinsertAll m (a ++ b) = dinsertAll (dinsertAll m a) b := by
  simp [dinsertAll, List.foldl_append]

theorem dinsertAll_cons {α : Type} (m : PyDict α) (e : String × α)
    (es : List (String × α)) :
    dinsertAll m (e :: es) = dinsertAll (dinsert m e.1 e.2) es := rfl

theorem dinsertAll_nil {α : Type} (m : PyDict α) : dinsertAll m [] = m := rfl

theorem groupDirEntries_establish (owner : HpcUserR) (g : HpcGroupR)
    (r : ResourceDataR) (es : List (String × FsDirectoryR))
    (hrr : g.resources_requested = some r)
    (hwt : truthyRat r.tier1_work = true) (hst : truthyRat r.tier1_scratch = true)
    (h : groupDirEntries owner g = some es) (acc : PyDict FsDirectoryR) :
    (∃ wd, alookup (dinsertAll acc es) (grpWorkPre ++ strip_pre g.name (some AG_PRE)) =
        some wd ∧
      wd.quota_bytes = some (pyIntOfRat (qMulNat r.tier1_work (1024 * 1024 * 1024 * 1024)))) ∧
    (∃ hd, alookup (dinsertAll acc es) (grpHomePre ++ strip_pre g.name (some AG_PRE)) =
        some hd ∧
      hd.quota_bytes = some QUOTA_HOME_BYTES) := by
  rw [groupDirEntries, hrr] at h
  dsimp only at h
  rw [if_neg (by simp [hwt]), if_neg (by simp [hst])] at h
  have hes := Option.some.inj h
  subst hes
  rw [dinsertAll_append]
  have ht2 : ∀ e ∈ ((if truthyRat r.tier2_unmirrored = true then
        [(grpUnmPre ++ strip_pre g.name (some AG_PRE),
          mkStorageDir (grpUnmPre ++ strip_pre g.name (some AG_PRE)) owner.username
            owner.uid (strip_pre g.name (some AG_PRE)) (g.gid.getD 0)
            (some (pyIntOfRat r.tier2_unmirrored)))]
      else []) ++
      (if truthyRat r.tier2_mirrored = true then
        [(grpMirPre ++ strip_pre g.name (some AG_PRE),
          mkStorageDir (grpMirPre ++ strip_pre g.name (some AG_PRE)) owner.username
            owner.uid (strip_pre g.name (some AG_PRE)) (g.gid.getD 0)
            (some (pyIntOfRat r.tier2_mirrored)))]
      else [])),
      (e : String × FsDirectoryR).1 = grpUnmPre ++ strip_pre g.name (some AG_PRE) ∨
        e.1 = grpMirPre ++ strip_pre g.name (some AG_PRE) := by
    intro e he
    rcases List.mem_append.mp he with h5 | h5 <;> split at h5
    · left
      simp only [List.mem_singleton] at h5
      rw [h5]
    · simp at h5
    · right
      simp only [List.mem_singleton] at h5
      rw [h5]
    · simp at h5
  have hneW : ∀ e ∈ ((if truthyRat r.tier2_unmirrored = true then
        [(grpUnmPre ++ strip_pre g.name (some AG_PRE),
          mkStorageDir (grpUnmPre ++ strip_pre g.name (some AG_PRE)) owner.username
            owner.uid (strip_pre g.name (some AG_PRE)) (g.gid.getD 0)
            (some (pyIntOfRat r.tier2_unmirrored)))]
      else []) ++
      (if truthyRat r.tier2_mirrored = true then
        [(grpMirPre ++ strip_pre g.name (some AG_PRE),
          mkStorageDir (grpMirPre ++ strip_pre g.name (some AG_PRE)) owner.username
            owner.uid (strip_pre g.name (some AG_PRE)) (g.gid.getD 0)
            (some (pyIntOfRat r.tier2_mirrored)))]
      else [])),
      (e : String × FsDirectoryR).1 ≠ grpWorkPre ++ strip_pre g.name (some AG_PRE) := by
    intro e he
    rcases ht2 e he with hk | hk <;> rw [hk]
    · exact str_append_ne_of_diverge _ _ (by decide) _ _
    · exact str_append_ne_of_diverge _ _ (by decide) _ _
  have hneH : ∀ e ∈ ((if truthyRat r.tier2_unmirrored = true then
        [(grpUnmPre ++ strip_pre g.name (some AG_PRE),
          mkStorageDir (grpUnmPre ++ strip_pre g.name (some AG_PRE)) owner.username
            owner.uid (strip_pre g.name (some AG_PRE)) (g.gid.getD 0)
            (some (pyIntOfRat r.tier2_unmirrored)))]
      else []) ++
      (if truthyRat r.tier2_mirrored = true then
        [(grpMirPre ++ strip_pre g.name (some AG_PRE),
          mkStorageDir (grpMirPre ++ strip_pre g.name (some AG_PRE)) owner.username
            owner.uid (strip_pre g.name (some AG_PRE)) (g.gid.getD 0)
            (some (pyIntOfRat r.tier2_mirrored)))]
      else [])),
      (e : String × FsDirectoryR).1 ≠ grpHomePre ++ strip_pre g.name (some AG_PRE) := by
    intro e he
    rcases ht2 e he with hk | hk <;> rw [hk]
    · exact str_append_ne_of_diverge _ _ (by decide) _ _
    · exact str_append_ne_of_diverge _ _ (by decide) _ _
  constructor
  · rw [dinsertAll_lookup_notin _ _ _ hneW]
    simp only [dinsertAll_cons, dinsertAll_nil]
    exact ⟨_, dinsert_lookup_self _ _ _, rfl⟩
  · rw [dinsertAll_lookup_notin _ _ _ hneH]
    simp only [dinsertAll_cons, dinsertAll_nil]
    rw [dinsert_lookup_ne _ _ _ _ (str_append_ne_of_diverge _ _ (by decide) _ _)]
    rw [dinsert_lookup_ne _ _ _ _ (str_append_ne_of_diverge _ _ (by decide) _ _)]
    exact ⟨_, dinsert_lookup_self _ _ _, rfl⟩
theorem groupDirsLoop_establish (users : PyDict HpcUserR) (k : String)
    (g : HpcGroupR) (r : ResourceDataR)
    (hrr : g.resources_requested = some r)
    (hwt : truthyRat r.tier1_work = true) (hst : truthyRat r.tier1_scratch = true)
    (hgt : truthyOptInt g.gid = true) :
    ∀ (gs : List (String × HpcGroupR)) (acc : PyDict FsDirectoryR)
      (last : Option HpcGroupR) (r2 : PyDict FsDirectoryR) (lg : Option HpcGroupR),
      groupDirsLoop users acc last gs = some (r2, lg) →
      (k, g) ∈ gs → (keysOf gs).Nodup →
      (∀ kv ∈ gs, (kv : String × HpcGroupR).1 ≠ k →
        strip_pre (kv.2 : HpcGroupR).name (some AG_PRE) ≠ strip_pre g.name (some AG_PRE)) →
      (∃ wd, alookup r2 (grpWorkPre ++ strip_pre g.name (some AG_PRE)) = some wd ∧
        wd.quota_bytes =
          some (pyIntOfRat (qMulNat r.tier1_work (1024 * 1024 * 1024 * 1024)))) ∧
      (∃ hd, alookup r2 (grpHomePre ++ strip_pre g.name (some AG_PRE)) = some hd ∧
        hd.quota_bytes = some QUOTA_HOME_BYTES) := by
  intro gs
  induction gs with
  | nil => intro acc last r2 lg _ hmem; simp at hmem
  | cons hd rest ih =>
    intro acc last r2 lg h hmem hnd hdist
    obtain ⟨k1, g1⟩ := hd
    rw [keysOf_cons] at hnd
    obtain ⟨hn1, hnd'⟩ := List.nodup_cons.mp hnd
    rcases List.mem_cons.mp hmem with hh | ht
    · have hk : k = k1 := congrArg Prod.fst hh
      have hgeq : g = g1 := congrArg Prod.snd hh
      subst hk
      subst hgeq
      rw [groupDirsLoop] at h
      rw [if_neg (by simp [hgt])] at h
      split at h
      · simp at h
      · rename_i owner howner
        split at h
        · simp at h
        · rename_i es hes
          have hbase := groupDirEntries_establish owner g r es hrr hwt hst hes acc
          have hkeyW : ∀ kv ∈ rest, ∀ lit ∈ grpLits,
              grpWorkPre ++ strip_pre g.name (some AG_PRE) ≠
                lit ++ strip_pre (kv.2 : HpcGroupR).name (some AG_PRE) := by
            intro kv hkv lit hlit
            have hkne : (kv : String × HpcGroupR).1 ≠ k :=
              fun e => hn1 (e ▸ List.mem_map_of_mem Prod.fst hkv)
            exact grp_key_ne grpWorkPre (by simp [grpLits]) _ _
              (fun e => hdist kv (List.mem_cons_of_mem _ hkv) hkne e.symm) lit hlit
          have hkeyH : ∀ kv ∈ rest, ∀ lit ∈ grpLits,
              grpHomePre ++ strip_pre g.name (some AG_PRE) ≠
                lit ++ strip_pre (kv.2 : HpcGroupR).name (some AG_PRE) := by
            intro kv hkv lit hlit
            have hkne : (kv : String × HpcGroupR).1 ≠ k :=
              fun e => hn1 (e ▸ List.mem_map_of_mem Prod.fst hkv)
            exact grp_key_ne grpHomePre (by simp [grpLits]) _ _
              (fun e => hdist kv (List.mem_cons_of_mem _ hkv) hkne e.symm) lit hlit
          have hfrW := groupDirsLoop_frame users rest (dinsertAll acc es) (some g)
            r2 lg h (grpWorkPre ++ strip_pre g.name (some AG_PRE)) hkeyW
          have hfrH := groupDirsLoop_frame users rest (dinsertAll acc es) (some g)
            r2 lg h (grpHomePre ++ strip_pre g.name (some AG_PRE)) hkeyH
          rw [hfrW, hfrH]
          exact hbase
    · rw [groupDirsLoop] at h
      have hdist' : ∀ kv ∈ rest, (kv : String × HpcGroupR).1 ≠ k →
          strip_pre (kv.2 : HpcGroupR).name (some AG_PRE) ≠
            strip_pre g.name (some AG_PRE) :=
        fun kv hkv => hdist kv (List.mem_cons_of_mem _ hkv)
      split at h
      · exact ih _ _ _ _ h ht hnd' hdist'
      · split at h
        · simp at h
        · split at h
          · simp at h
          · exact ih _ _ _ _ h ht hnd' hdist'
/-- C7: for every registry group in the snapshot with a truthy numeric id,
a requested `tier1_work` of 2.0 terabytes and a nonzero `tier1_scratch`
(and a stripped name distinct from the other groups'), the desired
directory state built by `_build_fs_directories` contains the group's
tier-1 work directory with `quota_bytes` of exactly `2 * 1024^4`, and the
corresponding tier-1 home directory carries the fixed home quota. -/
theorem C7_tier1_work_quota (st : HpcaccessStateR) (dirs : PyDict FsDirectoryR)
    (k : String) (g : HpcGroupR) (r : ResourceDataR)
    (h : buildFsDirectories st = some dirs)
    (hmem : (k, g) ∈ st.hpc_groups) (hnd : (keysOf st.hpc_groups).Nodup)
    (hgt : truthyOptInt g.gid = true)
    (hrr : g.resources_requested = some r)
    (hw : r.tier1_work = 2) (hst : truthyRat r.tier1_scratch = true)
    (hdist : ∀ kv ∈ st.hpc_groups, (kv : String × HpcGroupR).1 ≠ k →
      strip_pre (kv.2 : HpcGroupR).name (some AG_PRE) ≠
        strip_pre g.name (some AG_PRE)) :
    (∃ wd, alookup dirs (grpWorkPre ++ strip_pre g.name (some AG_PRE)) = some wd ∧
      wd.quota_bytes = some (2 * 1024 * 1024 * 1024 * 1024)) ∧
    (∃ hd, alookup dirs (grpHomePre ++ strip_pre g.name (some AG_PRE)) = some hd ∧
      hd.quota_bytes = some QUOTA_HOME_BYTES) := by
  rw [buildFsDirectories] at h
  split at h
  · simp at h
  · rename_i r1 hr1
    split at h
    · simp at h
    · rename_i out r2v lgv hr2
      have hwt : truthyRat r.tier1_work = true := by rw [hw]; decide
      have hmain := groupDirsLoop_establish st.hpc_users k g r hrr hwt hst hgt
        st.hpc_groups r1 none r2v lgv hr2 hmem hnd hdist
      have hfrW := projectDirsLoop_frame st lgv st.hpc_projects r2v dirs h
        (grpWorkPre ++ strip_pre g.name (some AG_PRE))
        (fun n lit hlit => str_append_ne_of_diverge _ _
          (grp_prj_diverge grpWorkPre (by simp [grpLits]) lit hlit) _ _)
      have hfrH := projectDirsLoop_frame st lgv st.hpc_projects r2v dirs h
        (grpHomePre ++ strip_pre g.name (some AG_PRE))
        (fun n lit hlit => str_append_ne_of_diverge _ _
          (grp_prj_diverge grpHomePre (by simp [grpLits]) lit hlit) _ _)
      rw [hfrW, hfrH]
      obtain ⟨⟨wd, hwd, hq⟩, hhome⟩ := hmain
      refine ⟨⟨wd, hwd, ?_⟩, hhome⟩
      rw [hq, hw]
      decide

/-- C7 witness: the theorem applied to the concrete snapshot `st7`. -/
theorem C7_tier1_work_quota_witness :
    buildFsDirectories st7 = some dirs7 ∧
    ((∃ wd, alookup dirs7 (grpWorkPre ++ strip_pre groupW7.name (some AG_PRE)) =
        some wd ∧ wd.quota_bytes = some (2 * 1024 * 1024 * 1024 * 1024)) ∧
     (∃ hd, alookup dirs7 (grpHomePre ++ strip_pre groupW7.name (some AG_PRE)) =
        some hd ∧ hd.quota_bytes = some QUOTA_HOME_BYTES)) := by
  have hb : buildFsDirectories st7 = some dirs7 := by decide
  exact ⟨hb, C7_tier1_work_quota st7 dirs7 "g7" groupW7
    { tier1_work := 2, tier1_scratch := 1 } hb (by decide) (by decide) (by decide)
    rfl rfl (by decide) (by decide)⟩

/-- C10 witness: the theorem applied to a concrete pair of single-entry
states differing only in observed usage. -/
theorem C10_update_with_empty_diff_witness :
    ∃ ops, compareFsDirectories [(dirUsage1.path, dirUsage1)]
        [(dirUsage1.path, dirUsage2)] = some ops ∧
      ops.filter (fun op => op.directory.path == dirUsage1.path) =
        [⟨StateOperation.UPDATE, dirUsage1, []⟩] ∧
      applyFsOpCmds ⟨StateOperation.UPDATE, dirUsage1, []⟩ = some [] :=
  C10_update_with_empty_diff [(dirUsage1.path, dirUsage1)]
    [(dirUsage1.path, dirUsage2)] dirUsage1.path dirUsage1 dirUsage2
    (by decide) (by decide) (by decide) (by decide) (by decide)
    rfl rfl rfl rfl rfl (by decide)
